import Mathlib

/-
Verification of the RasteriCEr host-side driver (src/lib/gl/Renderer.hpp).

The Renderer template class is embedded shallowly: machine integers become
Nat (with explicit truncation where the C++ code truncates), pointers become
Int offsets, the two frame display lists and the upload display list become
typed record arenas, and the bus connector becomes an event trace.  The
DisplayList, Rasterizer and IBusConnector collaborators are declared in
headers that are not part of the sources; their operations are modelled
from the specification (sections 4.1, 6.1 and 6.2) and marked as such.
-/

namespace RasteriCEr

/-- Compile-time template parameters of the Renderer class together with the
per-type aligned record sizes used by the display-list arenas.  szSCT,
szTri, szTex and szU16 stand for sizeOf of StreamCommandType,
Rasterizer.RasterizedTriangle, TextureStreamArg and uint16_t, each rounded
up to the bus alignment BUS_WIDTH / 8. -/
structure Cfg where
  displayListSize : Nat
  displayLines : Nat
  lineResolution : Nat
  szSCT : Nat
  szTri : Nat
  szTex : Nat
  szU16 : Nat
deriving DecidableEq

/-- HARDWARE_BUFFER_SIZE, the capacity of the upload display list. -/
def HARDWARE_BUFFER_SIZE : Nat := 2048

/-- RasterizedTriangle is an opaque POD produced by the rasterizer; the
driver only writes its triangleStaticColor field.  The remaining data is
collapsed into the abstract shape component. -/
structure RasterizedTriangle where
  shape : Nat
  triangleStaticColor : Nat
deriving DecidableEq

/-- TextureStreamArg from Renderer.hpp: a borrowed pixel pointer (modelled
as an Int address counted in 16-bit pixels) and the signed count of pixels
still to be uploaded. -/
structure TextureStreamArg where
  pixels : Int
  remainingPixels : Int
deriving DecidableEq

/-- One typed record stored in a display-list arena.  The C++ arena is a
raw byte buffer; every record the Renderer ever stores is one of these four
shapes, so the byte buffer is modelled as a list of typed records whose
aligned byte sizes come from Cfg. -/
inductive Entry where
  | op (v : Nat)
  | tri (t : RasterizedTriangle)
  | texArg (a : TextureStreamArg)
  | reg (v : Nat)
deriving DecidableEq

/-- Aligned byte size of one record, sizeOf of the record type. -/
def entrySize (cfg : Cfg) : Entry → Nat
  | .op _ => cfg.szSCT
  | .tri _ => cfg.szTri
  | .texArg _ => cfg.szTex
  | .reg _ => cfg.szU16

/-- Modelled from the spec: the display-list state enumeration of
DisplayList.hpp (missing from the sources), spec section 4.1. -/
inductive LState where
  | free
  | queued
  | transferring
deriving DecidableEq

/-- Modelled from the spec: the DisplayList arena of DisplayList.hpp
(missing from the sources), spec section 4.1.  The byte buffer together
with write_pos becomes the record list entries (write_pos is the summed
size of the records); read_pos becomes the index readIdx of the first
unread record. -/
structure DisplayList where
  entries : List Entry
  readIdx : Nat
  state : LState
deriving DecidableEq

namespace DisplayList

/-- write_pos of the arena: total aligned bytes of the stored records. -/
def usedBytes (cfg : Cfg) (l : DisplayList) : Nat :=
  (l.entries.map (entrySize cfg)).sum

/-- Modelled from the spec: getFreeSpace, capacity minus write_pos. -/
def getFreeSpace (cap : Nat) (cfg : Cfg) (l : DisplayList) : Nat :=
  cap - usedBytes cfg l

/-- Modelled from the spec: getSize, the current write_pos. -/
def getSize (cfg : Cfg) (l : DisplayList) : Nat :=
  usedBytes cfg l

/-- Modelled from the spec: create, which reserves an aligned record if it
fits below the capacity and otherwise returns none (a C++ nullptr).  The
value the caller would write through the returned pointer is supplied
directly. -/
def create (cap : Nat) (cfg : Cfg) (l : DisplayList) (e : Entry) : Option DisplayList :=
  if usedBytes cfg l + entrySize cfg e ≤ cap then
    some { l with entries := l.entries ++ [e] }
  else
    none

/-- Modelled from the spec: remove, the one-level LIFO rollback that takes
write_pos back by the size of the last record.  It is only ever called
immediately after a create of the same record type, so dropping the last
record is the byte-exact effect. -/
def remove (l : DisplayList) : DisplayList :=
  { l with entries := l.entries.dropLast }

/-- Modelled from the spec: getNext of StreamCommandType.  Returns the
record at read_pos and advances read_pos; none when the read cursor has
caught up with write_pos.  The C++ code reinterprets raw bytes, which is
only well defined when the record at read_pos really is a command word;
a type mismatch would be undefined behaviour and is mapped to none. -/
def getNextOp (l : DisplayList) : Option (Nat × DisplayList) :=
  match l.entries[l.readIdx]? with
  | some (Entry.op v) => some (v, { l with readIdx := l.readIdx + 1 })
  | _ => none

/-- Modelled from the spec: getNext of RasterizedTriangle. -/
def getNextTri (l : DisplayList) : Option (RasterizedTriangle × DisplayList) :=
  match l.entries[l.readIdx]? with
  | some (Entry.tri t) => some (t, { l with readIdx := l.readIdx + 1 })
  | _ => none

/-- Modelled from the spec: getNext of TextureStreamArg. -/
def getNextTex (l : DisplayList) : Option (TextureStreamArg × DisplayList) :=
  match l.entries[l.readIdx]? with
  | some (Entry.texArg a) => some (a, { l with readIdx := l.readIdx + 1 })
  | _ => none

/-- Modelled from the spec: getNext of uint16_t (a SET_REG payload). -/
def getNextReg (l : DisplayList) : Option (Nat × DisplayList) :=
  match l.entries[l.readIdx]? with
  | some (Entry.reg v) => some (v, { l with readIdx := l.readIdx + 1 })
  | _ => none

/-- Modelled from the spec: atEnd, read_pos equal to write_pos. -/
def atEnd (l : DisplayList) : Bool :=
  l.readIdx == l.entries.length

/-- Modelled from the spec: resetGet, rewinding read_pos to zero. -/
def resetGet (l : DisplayList) : DisplayList :=
  { l with readIdx := 0 }

/-- Modelled from the spec: clear, emptying the arena and freeing it. -/
def clear (_l : DisplayList) : DisplayList :=
  { entries := [], readIdx := 0, state := LState.free }

/-- Modelled from the spec: enqueue, the FREE to QUEUED transition.  The
precondition that the list is FREE holds at every call site. -/
def enqueue (l : DisplayList) : DisplayList :=
  { l with state := LState.queued }

/-- Modelled from the spec: transfer, the QUEUED to TRANSFERRING
transition.  The precondition that the list is QUEUED holds at every call
site. -/
def transfer (l : DisplayList) : DisplayList :=
  { l with state := LState.transferring }

end DisplayList

-- The StreamCommand opcode constants of Renderer.hpp.  An opcode is a
-- 16-bit word, 4 bits of operation class and 12 bits of immediate.
namespace StreamCommand

def STREAM_COMMAND_OP_MASK : Nat := 0xf000
def NOP : Nat := 0x0000
def TEXTURE_STREAM : Nat := 0x1000
def SET_REG : Nat := 0x2000
def FRAMEBUFFER_OP : Nat := 0x3000
def TRIANGLE_STREAM : Nat := 0x4000
def TEXTURE_STREAM_32x32 : Nat := TEXTURE_STREAM ||| 0x0011
def TEXTURE_STREAM_64x64 : Nat := TEXTURE_STREAM ||| 0x0022
def TEXTURE_STREAM_128x128 : Nat := TEXTURE_STREAM ||| 0x0044
def TEXTURE_STREAM_256x256 : Nat := TEXTURE_STREAM ||| 0x0088
def SET_COLOR_BUFFER_CLEAR_COLOR : Nat := SET_REG ||| 0x0000
def SET_DEPTH_BUFFER_CLEAR_DEPTH : Nat := SET_REG ||| 0x0001
def SET_CONF_REG1 : Nat := SET_REG ||| 0x0002
def SET_CONF_REG2 : Nat := SET_REG ||| 0x0003
def SET_TEX_ENV_COLOR : Nat := SET_REG ||| 0x0004
def FRAMEBUFFER_COMMIT : Nat := FRAMEBUFFER_OP ||| 0x0001
def FRAMEBUFFER_MEMSET : Nat := FRAMEBUFFER_OP ||| 0x0002
def FRAMEBUFFER_COLOR : Nat := FRAMEBUFFER_OP ||| 0x0010
def FRAMEBUFFER_DEPTH : Nat := FRAMEBUFFER_OP ||| 0x0020

/-- TRIANGLE_FULL, TRIANGLE_STREAM with the aligned triangle size as the
immediate. -/
def TRIANGLE_FULL (cfg : Cfg) : Nat := TRIANGLE_STREAM ||| cfg.szTri

end StreamCommand

/-- Vec4i, a four-component vector of 32-bit signed integers; component 0
is red and component 3 is alpha, as used by convertColor. -/
structure Vec4i where
  v0 : Int
  v1 : Int
  v2 : Int
  v3 : Int
deriving DecidableEq

/-- Truncation of a signed value to uint16_t (static_cast in the source). -/
def toU16 (x : Int) : Nat :=
  (x % 65536).toNat

/-- Arithmetic shift right by four, the effect of the operator from
Vec.hpp applied by colorShift on each int32 component; floor division by
16 is the arithmetic-shift semantics. -/
def sar4 (x : Int) : Int :=
  Int.fdiv x 16

/-- convertColor from Renderer.hpp: shift every channel right by four and
pack the results as four nibbles, red in bits 12 to 15 down to alpha in
bits 0 to 3, truncated to the uint16_t result. -/
def convertColor (color : Vec4i) : Nat :=
  (toU16 (sar4 color.v3)
    ||| (toU16 (sar4 color.v2) <<< 4)
    ||| (toU16 (sar4 color.v1) <<< 8)
    ||| (toU16 (sar4 color.v0) <<< 12)) % 65536

/-- ConfReg1 of Renderer.hpp.  The three-bit and four-bit fields hold the
truncated numeric encodings of the external enumerations. -/
structure ConfReg1 where
  enableDepthTest : Bool
  depthFunc : Nat
  alphaFunc : Nat
  referenceAlphaValue : Nat
  depthMask : Bool
  colorMaskA : Bool
  colorMaskB : Bool
  colorMaskG : Bool
  colorMaskR : Bool
deriving DecidableEq

/-- Wire image of ConfReg1: the packed little-endian bit fields, least
significant field first as declared in the source. -/
def ConfReg1.pack (c : ConfReg1) : Nat :=
  (cond c.enableDepthTest 1 0)
    ||| ((c.depthFunc % 8) <<< 1)
    ||| ((c.alphaFunc % 8) <<< 4)
    ||| ((c.referenceAlphaValue % 16) <<< 7)
    ||| ((cond c.depthMask 1 0) <<< 11)
    ||| ((cond c.colorMaskA 1 0) <<< 12)
    ||| ((cond c.colorMaskB 1 0) <<< 13)
    ||| ((cond c.colorMaskG 1 0) <<< 14)
    ||| ((cond c.colorMaskR 1 0) <<< 15)

/-- ConfReg2 of Renderer.hpp. -/
structure ConfReg2 where
  perspectiveCorrectedTextures : Bool
  texEnvFunc : Nat
  blendFuncSFactor : Nat
  blendFuncDFactor : Nat
  texClampS : Bool
  texClampT : Bool
deriving DecidableEq

/-- Wire image of ConfReg2, least significant field first. -/
def ConfReg2.pack (c : ConfReg2) : Nat :=
  (cond c.perspectiveCorrectedTextures 1 0)
    ||| ((c.texEnvFunc % 8) <<< 1)
    ||| ((c.blendFuncSFactor % 16) <<< 4)
    ||| ((c.blendFuncDFactor % 16) <<< 8)
    ||| ((cond c.texClampS 1 0) <<< 12)
    ||| ((cond c.texClampT 1 0) <<< 13)

/-- TextureWrapMode from the external renderer interface. -/
inductive TextureWrapMode where
  | REPEAT
  | CLAMP_TO_EDGE
deriving DecidableEq

/-- Modelled from the spec: one observable action on the IBusConnector
(missing from the sources), spec section 6.1.  writeData is split by call
site into the upload-list flush (recording the flushed records and the
byte length) and the raw texture chunk (recording the source pointer and
the byte length). -/
inductive BusEvent where
  | startColorBufferTransfer (idx : Nat)
  | writeListData (entries : List Entry) (len : Nat)
  | writeTextureData (pixels : Int) (len : Nat)
deriving DecidableEq

/-- The mutable state of the Renderer object: the two frame display lists,
the front and back indices into them, the upload display list, the band
counter m_uploadIndexPosition, the texture cursor m_textureStreamArg and
the two configuration registers. -/
structure Renderer where
  dlist0 : DisplayList
  dlist1 : DisplayList
  frontList : Nat
  backList : Nat
  displayListUpload : DisplayList
  uploadIndexPosition : Nat
  textureStreamArg : TextureStreamArg
  confReg1 : ConfReg1
  confReg2 : ConfReg2
deriving DecidableEq

namespace Renderer

/-- m_displayList of m_frontList. -/
def front (r : Renderer) : DisplayList :=
  if r.frontList = 0 then r.dlist0 else r.dlist1

/-- m_displayList of m_backList. -/
def back (r : Renderer) : DisplayList :=
  if r.backList = 0 then r.dlist0 else r.dlist1

/-- Store a new value for the front display list. -/
def withFront (r : Renderer) (l : DisplayList) : Renderer :=
  if r.frontList = 0 then { r with dlist0 := l } else { r with dlist1 := l }

/-- Store a new value for the back display list. -/
def withBack (r : Renderer) (l : DisplayList) : Renderer :=
  if r.backList = 0 then { r with dlist0 := l } else { r with dlist1 := l }

/-- The front and back indices address different frame lists.  This holds
by construction (they start as 0 and 1 and are only ever swapped). -/
def ListsDistinct (r : Renderer) : Prop :=
  (r.frontList = 0 ∧ ¬ r.backList = 0) ∨ (¬ r.frontList = 0 ∧ r.backList = 0)

end Renderer

/-- appendStreamCommand of Renderer.hpp: create the command word and the
payload record, and on any failure roll back whichever of the two creates
succeeded, leaving the list unchanged and reporting out-of-memory. -/
def appendStreamCommand (cap : Nat) (cfg : Cfg) (dl : DisplayList) (op : Nat)
    (arg : Entry) : Bool × DisplayList :=
  match dl.create cap cfg (Entry.op op) with
  | some dl1 =>
    match dl1.create cap cfg arg with
    | some dl2 => (true, dl2)
    | none => (false, dl1.remove)
  | none =>
    match dl.create cap cfg arg with
    | some dl1 => (false, dl1.remove)
    | none => (false, dl)

/-- appendStreamCommand on the back display list, the overload the encoder
methods use. -/
def appendBack (cfg : Cfg) (r : Renderer) (op : Nat) (arg : Entry) : Bool × Renderer :=
  let p := appendStreamCommand cfg.displayListSize cfg r.back op arg
  (p.1, r.withBack p.2)

/-- setClearColor from Renderer.hpp. -/
def setClearColor (cfg : Cfg) (r : Renderer) (color : Vec4i) : Bool × Renderer :=
  appendBack cfg r StreamCommand.SET_COLOR_BUFFER_CLEAR_COLOR (Entry.reg (convertColor color))

/-- setClearDepth from Renderer.hpp. -/
def setClearDepth (cfg : Cfg) (r : Renderer) (depth : Nat) : Bool × Renderer :=
  appendBack cfg r StreamCommand.SET_DEPTH_BUFFER_CLEAR_DEPTH (Entry.reg (depth % 65536))

/-- setTexEnvColor from Renderer.hpp. -/
def setTexEnvColor (cfg : Cfg) (r : Renderer) (color : Vec4i) : Bool × Renderer :=
  appendBack cfg r StreamCommand.SET_TEX_ENV_COLOR (Entry.reg (convertColor color))

/-- Emit the current ConfReg1 snapshot after a register update. -/
def emitConfReg1 (cfg : Cfg) (r : Renderer) (c : ConfReg1) : Bool × Renderer :=
  let p := appendBack cfg { r with confReg1 := c } StreamCommand.SET_CONF_REG1
    (Entry.reg c.pack)
  p

/-- Emit the current ConfReg2 snapshot after a register update. -/
def emitConfReg2 (cfg : Cfg) (r : Renderer) (c : ConfReg2) : Bool × Renderer :=
  let p := appendBack cfg { r with confReg2 := c } StreamCommand.SET_CONF_REG2
    (Entry.reg c.pack)
  p

/-- setDepthMask from Renderer.hpp. -/
def setDepthMask (cfg : Cfg) (r : Renderer) (flag : Bool) : Bool × Renderer :=
  emitConfReg1 cfg r { r.confReg1 with depthMask := flag }

/-- enableDepthTest from Renderer.hpp. -/
def enableDepthTest (cfg : Cfg) (r : Renderer) (enable : Bool) : Bool × Renderer :=
  emitConfReg1 cfg r { r.confReg1 with enableDepthTest := enable }

/-- setColorMask from Renderer.hpp. -/
def setColorMask (cfg : Cfg) (r : Renderer) (cr cg cb ca : Bool) : Bool × Renderer :=
  emitConfReg1 cfg r { r.confReg1 with
    colorMaskA := ca, colorMaskB := cb, colorMaskG := cg, colorMaskR := cr }

/-- setDepthFunc from Renderer.hpp; the enumeration value is truncated to
the three-bit field. -/
def setDepthFunc (cfg : Cfg) (r : Renderer) (func : Nat) : Bool × Renderer :=
  emitConfReg1 cfg r { r.confReg1 with depthFunc := func % 8 }

/-- setAlphaFunc from Renderer.hpp. -/
def setAlphaFunc (cfg : Cfg) (r : Renderer) (func ref : Nat) : Bool × Renderer :=
  emitConfReg1 cfg r { r.confReg1 with alphaFunc := func % 8, referenceAlphaValue := ref % 16 }

/-- setTexEnv from Renderer.hpp: the target and pname arguments are cast
to void by the source and only param is stored (truncated to the
three-bit field). -/
def setTexEnv (cfg : Cfg) (r : Renderer) (target pname param : Nat) : Bool × Renderer :=
  let _ := target
  let _ := pname
  emitConfReg2 cfg r { r.confReg2 with texEnvFunc := param % 8 }

/-- setBlendFunc from Renderer.hpp. -/
def setBlendFunc (cfg : Cfg) (r : Renderer) (sfactor dfactor : Nat) : Bool × Renderer :=
  emitConfReg2 cfg r { r.confReg2 with
    blendFuncSFactor := sfactor % 16, blendFuncDFactor := dfactor % 16 }

/-- setTextureWrapModeS from Renderer.hpp. -/
def setTextureWrapModeS (cfg : Cfg) (r : Renderer) (mode : TextureWrapMode) : Bool × Renderer :=
  emitConfReg2 cfg r { r.confReg2 with texClampS := mode = TextureWrapMode.CLAMP_TO_EDGE }

/-- setTextureWrapModeT from Renderer.hpp. -/
def setTextureWrapModeT (cfg : Cfg) (r : Renderer) (mode : TextureWrapMode) : Bool × Renderer :=
  emitConfReg2 cfg r { r.confReg2 with texClampT := mode = TextureWrapMode.CLAMP_TO_EDGE }

/-- The opcode useTexture selects for a given width, following the
if-chain of the source; none corresponds to the unsupported-size failure
return. -/
def texStreamOp (texWidth : Nat) : Option Nat :=
  if texWidth = 256 then some StreamCommand.TEXTURE_STREAM_256x256
  else if texWidth = 128 then some StreamCommand.TEXTURE_STREAM_128x128
  else if texWidth = 64 then some StreamCommand.TEXTURE_STREAM_64x64
  else if texWidth = 32 then some StreamCommand.TEXTURE_STREAM_32x32
  else none

/-- useTexture from Renderer.hpp: reject non-square textures, select the
size-class opcode, and append the opcode with a TextureStreamArg holding
the borrowed pixel pointer and the total pixel count. -/
def useTexture (cfg : Cfg) (r : Renderer) (pixels : Int) (texWidth texHeight : Nat) :
    Bool × Renderer :=
  if texWidth ≠ texHeight then (false, r)
  else
    match texStreamOp texWidth with
    | none => (false, r)
    | some op =>
      appendBack cfg r op (Entry.texArg ⟨pixels, (texWidth * texHeight : Nat)⟩)

/-- setLogicOp from Renderer.hpp: accepted, ignored, reports failure. -/
def setLogicOp (r : Renderer) (opcode : Nat) : Bool × Renderer :=
  let _ := opcode
  (false, r)

/-- hasEnoughSpace from Renderer.hpp: the upload list can still take one
command word plus one triangle record. -/
def hasEnoughSpace (cap : Nat) (cfg : Cfg) (l : DisplayList) : Bool :=
  decide (l.getFreeSpace cap cfg ≥ cfg.szSCT + cfg.szTri)

/-- The per-band clipping contract of the external rasterizer (spec
section 6.2): calcLineIncrement specializes a triangle to the scanline
range and reports none when the triangle has no pixels there.  The
Renderer treats it as an opaque callback, so it is a parameter of the
walker. -/
def CalcFn : Type :=
  RasterizedTriangle → Nat → Nat → Option RasterizedTriangle

/-- The fill loop inside uploadDisplayList: walk the front list, copying
each command word into the upload list and handling its payload by
operation class.  The loop state is the front list read cursor, the upload
list and the texture cursor m_textureStreamArg; stopping with leaveLoop
(a texture that must be streamed) returns directly instead of recursing.
The fuel argument bounds the iteration count; every iteration consumes at
least one front-list record, so fuel equal to the number of unread records
reproduces the source loop exactly.  A none result marks a null-pointer
dereference of the source (an unchecked create or getNext), which cannot
happen on well-formed lists. -/
def fillLoop (cfg : Cfg) (calcLI : CalcFn) (idx : Nat) :
    Nat → DisplayList → DisplayList → TextureStreamArg →
    Option (DisplayList × DisplayList × TextureStreamArg)
  | 0, fl, ul, cur => some (fl, ul, cur)
  | fuel + 1, fl, ul, cur =>
    if hasEnoughSpace HARDWARE_BUFFER_SIZE cfg ul = false then some (fl, ul, cur)
    else
      match fl.getNextOp with
      | none => some (fl, ul, cur)
      | some (opv, fl1) =>
        match ul.create HARDWARE_BUFFER_SIZE cfg (Entry.op opv) with
        | none => none
        | some ul1 =>
          if opv &&& StreamCommand.STREAM_COMMAND_OP_MASK = StreamCommand.TRIANGLE_STREAM then
            match fl1.getNextTri with
            | none => none
            | some (t, fl2) =>
              -- The screen positions are uint16_t locals computed from the
              -- uint32 band counter, hence the truncation.
              let ys : Nat := (idx * cfg.lineResolution) % 65536
              let ye : Nat := ((idx + 1) * cfg.lineResolution) % 65536
              -- The source creates the output triangle record, lets
              -- calcLineIncrement write it, and on a miss removes both the
              -- record and the command word, restoring the upload list.
              if DisplayList.usedBytes cfg ul1 + cfg.szTri ≤ HARDWARE_BUFFER_SIZE then
                match calcLI t ys ye with
                | some t2 =>
                  fillLoop cfg calcLI idx fuel fl2
                    { ul1 with entries := ul1.entries ++ [Entry.tri t2] } cur
                | none => fillLoop cfg calcLI idx fuel fl2 ul cur
              else none
          else if opv &&& StreamCommand.STREAM_COMMAND_OP_MASK = StreamCommand.FRAMEBUFFER_OP
              ∨ opv &&& StreamCommand.STREAM_COMMAND_OP_MASK = StreamCommand.NOP then
            fillLoop cfg calcLI idx fuel fl1 ul1 cur
          else if opv &&& StreamCommand.STREAM_COMMAND_OP_MASK = StreamCommand.TEXTURE_STREAM then
            match fl1.getNextTex with
            | none => none
            | some (ta, fl2) =>
              -- curr saves the old cursor; the new payload becomes the
              -- cursor before the reupload check compares against curr.
              if ta.pixels + ta.remainingPixels = cur.pixels then
                -- Fast forward: the texture already sits in the device
                -- buffer; discard the copied command word and continue.
                fillLoop cfg calcLI idx fuel fl2 ul1.remove
                  ⟨ta.pixels + ta.remainingPixels, 0⟩
              else
                -- leaveLoop = true: stream this texture first.
                some (fl2, ul1, ta)
          else if opv &&& StreamCommand.STREAM_COMMAND_OP_MASK = StreamCommand.SET_REG then
            match ul1.create HARDWARE_BUFFER_SIZE cfg (Entry.reg 0) with
            | none => none
            | some _ =>
              match fl1.getNextReg with
              | none => none
              | some (v, fl2) =>
                fillLoop cfg calcLI idx fuel fl2
                  { ul1 with entries := ul1.entries ++ [Entry.reg v] } cur
          else
            -- Unknown operation class: drop the copied command word.
            fillLoop cfg calcLI idx fuel fl1 ul1.remove cur

/-- The fill pass the TRANSFERRING branch of uploadDisplayList performs on
a renderer state: clear the upload list and run the fill loop over the
unread part of the front list for the current band. -/
def bandFill (cfg : Cfg) (calcLI : CalcFn) (r : Renderer) :
    Option (DisplayList × DisplayList × TextureStreamArg) :=
  fillLoop cfg calcLI r.uploadIndexPosition
    (r.front.entries.length - r.front.readIdx)
    r.front r.displayListUpload.clear r.textureStreamArg

/-- The queued-front-list promotion at the top of uploadDisplayList:
restart the band counter at the last band and mark the front list as
transferring; a front list in any other state is left alone. -/
def promote (cfg : Cfg) (r : Renderer) : Renderer :=
  if r.front.state = LState.queued then
    { r.withFront r.front.transfer with uploadIndexPosition := cfg.displayLines - 1 }
  else r

/-- The TRANSFERRING branch of uploadDisplayList: either push one pending
texture chunk, or fill the upload list from the front list for the
current band and flush it to the bus, handling the band rewind and the
end-of-frame clear.  none marks a source null-pointer dereference. -/
def tickTransferring (cfg : Cfg) (calcLI : CalcFn) (r1 : Renderer) :
    Option (Bool × Renderer × List BusEvent) :=
  if r1.textureStreamArg.remainingPixels > 0 then
    -- Pending texture upload: push one hardware buffer of pixels and
    -- advance the cursor by HARDWARE_BUFFER_SIZE / 2 pixels.
    some (true,
      { r1 with textureStreamArg :=
          ⟨r1.textureStreamArg.pixels + 1024, r1.textureStreamArg.remainingPixels - 1024⟩ },
      [BusEvent.writeTextureData r1.textureStreamArg.pixels HARDWARE_BUFFER_SIZE])
  else
    match bandFill cfg calcLI r1 with
    | none => none
    | some (fl2, ul2, cur2) =>
      let tr := [BusEvent.startColorBufferTransfer r1.uploadIndexPosition,
                 BusEvent.writeListData ul2.entries (ul2.getSize cfg)]
      if fl2.atEnd then
        if r1.uploadIndexPosition = 0 then
          -- Frame fully emitted: rewind, clear and report idle.
          some (false,
            { r1.withFront fl2.resetGet.clear with
                displayListUpload := ul2, textureStreamArg := cur2 }, tr)
        else
          some (true,
            { r1.withFront fl2.resetGet with
                displayListUpload := ul2, textureStreamArg := cur2,
                uploadIndexPosition := r1.uploadIndexPosition - 1 }, tr)
      else
        some (true,
          { r1.withFront fl2 with
              displayListUpload := ul2, textureStreamArg := cur2 }, tr)

/-- uploadDisplayList from Renderer.hpp, one tick of the band walker.  The
clear-to-send poll of the bus is the cts input; the returned Boolean is
the upload-in-progress flag of the source and the event list is the bus
traffic of this tick.  none marks a source null-pointer dereference. -/
def uploadDisplayList (cfg : Cfg) (calcLI : CalcFn) (cts : Bool) (r : Renderer) :
    Option (Bool × Renderer × List BusEvent) :=
  if cts = false then some (true, r, [])
  else
    let r1 := promote cfg r
    if r1.front.state = LState.transferring then
      tickTransferring cfg calcLI r1
    else
      some (false, r1, [])

/-- The busy-poll drain loop of commit: tick the walker until it reports
idle.  ctsSeq gives the clear-to-send answer of each poll and k counts the
polls already made; the result carries the next poll index and the
accumulated bus traffic.  none is fuel exhaustion (the source loop would
still be running) or a source null-pointer dereference. -/
def drainLoop (cfg : Cfg) (calcLI : CalcFn) (ctsSeq : Nat → Bool) :
    Nat → Nat → Renderer → Option (Renderer × Nat × List BusEvent)
  | 0, _, _ => none
  | fuel + 1, k, r =>
    match uploadDisplayList cfg calcLI (ctsSeq k) r with
    | none => none
    | some (b, r1, tr) =>
      if b then
        match drainLoop cfg calcLI ctsSeq fuel (k + 1) r1 with
        | none => none
        | some (r2, k2, tr2) => some (r2, k2, tr ++ tr2)
      else
        some (r1, k + 1, tr)

/-- The front and back index swap inside commit. -/
def swapLists (r : Renderer) : Renderer :=
  if r.backList = 0 then { r with backList := 1, frontList := 0 }
  else { r with backList := 0, frontList := 1 }

/-- commit from Renderer.hpp.  Append the FRAMEBUFFER_COMMIT or
FRAMEBUFFER_COLOR sentinel to the back list; when the back list is full,
discard it entirely and return at once.  Otherwise drain the front list,
enqueue the back list, swap the lists and kick the walker once.  The
source method returns void, so the result carries only the final state
and the bus traffic. -/
def commit (cfg : Cfg) (calcLI : CalcFn) (ctsSeq : Nat → Bool) (fuel : Nat) (r : Renderer) :
    Option (Renderer × List BusEvent) :=
  match r.back.create cfg.displayListSize cfg
      (Entry.op (StreamCommand.FRAMEBUFFER_COMMIT ||| StreamCommand.FRAMEBUFFER_COLOR)) with
  | none => some (r.withBack r.back.clear, [])
  | some bl =>
    let r1 := r.withBack bl
    match drainLoop cfg calcLI ctsSeq fuel 0 r1 with
    | none => none
    | some (r2, k, tr1) =>
      let r3 := r2.withBack r2.back.enqueue
      let r4 := swapLists r3
      match uploadDisplayList cfg calcLI (ctsSeq k) r4 with
      | none => none
      | some (_, r5, tr2) => some (r5, tr1 ++ tr2)

/-- The C++ return type of the source commit method (declared
virtual void commit), embedded as Unit. -/
def CommitReturnType : Type := Unit

/-- drawTriangle from Renderer.hpp.  The external Rasterizer reduces the
vertices to a RasterizedTriangle or reports no visible coverage; that
outcome is the rast input.  An invisible triangle is silently dropped with
a success return.  Otherwise the static color is set, the record pair is
appended to the back list and one walker tick runs before the append
result is returned. -/
def drawTriangle (cfg : Cfg) (calcLI : CalcFn) (cts : Bool) (r : Renderer)
    (rast : Option Nat) (color : Vec4i) : Option (Bool × Renderer × List BusEvent) :=
  match rast with
  | none => some (true, r, [])
  | some shape =>
    let t : RasterizedTriangle := ⟨shape, convertColor color⟩
    let p := appendBack cfg r (StreamCommand.TRIANGLE_FULL cfg) (Entry.tri t)
    match uploadDisplayList cfg calcLI cts p.2 with
    | none => none
    | some (_, r2, tr) => some (p.1, r2, tr)

/-! Concrete fixtures used by witnesses and counterexamples. -/

/-- A small concrete configuration: the default template parameters with
two display lines and aligned record sizes 4 (command word), 8 (triangle),
8 (texture argument) and 4 (register payload). -/
def cfg0 : Cfg := ⟨2048, 2, 128, 4, 8, 8, 4⟩

/-- A configuration with a tiny frame-list capacity of 8 bytes, used to
exercise the out-of-memory paths. -/
def cfgSmall : Cfg := ⟨8, 1, 128, 4, 8, 8, 4⟩

/-- An empty, free display list. -/
def emptyDL : DisplayList := ⟨[], 0, LState.free⟩

/-- A zeroed ConfReg1 value. -/
def reg1z : ConfReg1 := ⟨false, 0, 0, 0, false, false, false, false, false⟩

/-- A zeroed ConfReg2 value. -/
def reg2z : ConfReg2 := ⟨false, 0, 0, 0, false, false⟩

/-- A freshly constructed renderer: both frame lists empty and free,
front index 0, back index 1. -/
def r0 : Renderer := ⟨emptyDL, emptyDL, 0, 1, emptyDL, 0, ⟨0, 0⟩, reg1z, reg2z⟩

/-- A renderer whose front list is empty but queued, as right after a
commit of an empty frame. -/
def rQ : Renderer := ⟨⟨[], 0, LState.queued⟩, emptyDL, 0, 1, emptyDL, 0, ⟨0, 0⟩, reg1z, reg2z⟩

/-- A renderer whose back list is full for an 8-byte capacity. -/
def rFull : Renderer :=
  ⟨emptyDL, ⟨[Entry.op 0, Entry.op 0], 0, LState.free⟩, 0, 1, emptyDL, 0, ⟨0, 0⟩, reg1z, reg2z⟩

/-- A clipping callback that reports every triangle as missing the band. -/
def calc0 : CalcFn := fun _ _ _ => none

/-- A bus that is always clear to send. -/
def cts0 : Nat → Bool := fun _ => true

/-- The zero color. -/
def colorZ : Vec4i := ⟨0, 0, 0, 0⟩

/-- A clipping callback that reports every triangle as fully inside the
band, returning it unchanged. -/
def calcId : CalcFn := fun t _ _ => some t

/-- A transferring front list holding one triangle command pair. -/
def flC2 : DisplayList := ⟨[Entry.op 16392, Entry.tri ⟨5, 0⟩], 0, LState.transferring⟩

/-- A transferring front list holding one texture-stream command pair. -/
def flC5 : DisplayList := ⟨[Entry.op 4113, Entry.texArg ⟨10, 20⟩], 0, LState.transferring⟩

/-- A renderer mid-frame: empty transferring front list, band counter 1. -/
def rT1 : Renderer :=
  ⟨⟨[], 0, LState.transferring⟩, emptyDL, 0, 1, emptyDL, 1, ⟨0, 0⟩, reg1z, reg2z⟩

/-- The back list of a fresh renderer after the commit sentinel append:
one FRAMEBUFFER_COMMIT or FRAMEBUFFER_COLOR opcode. -/
def blW : DisplayList := ⟨[Entry.op 12305], 0, LState.free⟩

/-- The renderer state at commit-return for a fresh renderer committing
the single-opcode frame blW with the bus always clear: the final kick has
advanced the new front list (now list 1) to TRANSFERRING with the band
counter moved from 1 to 0 and the sentinel flushed to the upload list. -/
def rC6 : Renderer :=
  ⟨emptyDL, ⟨[Entry.op 12305], 0, LState.transferring⟩, 1, 0,
    ⟨[Entry.op 12305], 0, LState.free⟩, 0, ⟨0, 0⟩, reg1z, reg2z⟩

/-- The atomicity contract of a command append: against the pre-call list
dl, an outcome p (returned flag and resulting list) either appended
exactly the command word and its payload record and reported true, or
reported false and left the list byte-identical (same records, same
read position, same state, hence the same write position). -/
def AtomicAppend (dl : DisplayList) (op : Nat) (arg : Entry)
    (p : Bool × DisplayList) : Prop :=
  (p.1 = true ∧ p.2 = { dl with entries := dl.entries ++ [Entry.op op, arg] }) ∨
  (p.1 = false ∧ p.2 = dl)

/-! Basic lemmas about the display-list arena and the renderer state. -/

theorem DisplayList.remove_concat (l : DisplayList) (e : Entry) :
    DisplayList.remove { l with entries := l.entries ++ [e] } = l := by
  simp [DisplayList.remove]

theorem Renderer.front_withFront (r : Renderer) (l : DisplayList) :
    (r.withFront l).front = l := by
  unfold Renderer.withFront Renderer.front
  by_cases h : r.frontList = 0 <;> simp [h]

theorem Renderer.back_withBack (r : Renderer) (l : DisplayList) :
    (r.withBack l).back = l := by
  unfold Renderer.withBack Renderer.back
  by_cases h : r.backList = 0 <;> simp [h]

theorem Renderer.back_withFront (r : Renderer) (l : DisplayList)
    (h : r.ListsDistinct) : (r.withFront l).back = r.back := by
  unfold Renderer.withFront Renderer.back
  rcases h with ⟨h1, h2⟩ | ⟨h1, h2⟩ <;> simp [h1, h2]

theorem Renderer.front_withBack (r : Renderer) (l : DisplayList)
    (h : r.ListsDistinct) : (r.withBack l).front = r.front := by
  unfold Renderer.withBack Renderer.front
  rcases h with ⟨h1, h2⟩ | ⟨h1, h2⟩ <;> simp [h1, h2]

theorem Renderer.withFront_fields (r : Renderer) (l : DisplayList) :
    (r.withFront l).frontList = r.frontList ∧ (r.withFront l).backList = r.backList ∧
    (r.withFront l).displayListUpload = r.displayListUpload ∧
    (r.withFront l).uploadIndexPosition = r.uploadIndexPosition ∧
    (r.withFront l).textureStreamArg = r.textureStreamArg ∧
    (r.withFront l).confReg1 = r.confReg1 ∧ (r.withFront l).confReg2 = r.confReg2 := by
  unfold Renderer.withFront
  by_cases h : r.frontList = 0 <;> simp [h]

theorem Renderer.withBack_fields (r : Renderer) (l : DisplayList) :
    (r.withBack l).frontList = r.frontList ∧ (r.withBack l).backList = r.backList ∧
    (r.withBack l).displayListUpload = r.displayListUpload ∧
    (r.withBack l).uploadIndexPosition = r.uploadIndexPosition ∧
    (r.withBack l).textureStreamArg = r.textureStreamArg ∧
    (r.withBack l).confReg1 = r.confReg1 ∧ (r.withBack l).confReg2 = r.confReg2 := by
  unfold Renderer.withBack
  by_cases h : r.backList = 0 <;> simp [h]

theorem DisplayList.usedBytes_concat (cfg : Cfg) (l : DisplayList) (e : Entry) :
    DisplayList.usedBytes cfg { l with entries := l.entries ++ [e] }
      = DisplayList.usedBytes cfg l + entrySize cfg e := by
  simp [DisplayList.usedBytes]

theorem entrySize_op (cfg : Cfg) (op : Nat) :
    entrySize cfg (Entry.op op) = cfg.szSCT := rfl

theorem DisplayList.create_eq_some {cap : Nat} {cfg : Cfg} {l : DisplayList} {e : Entry}
    {l2 : DisplayList} :
    DisplayList.create cap cfg l e = some l2 ↔
      DisplayList.usedBytes cfg l + entrySize cfg e ≤ cap ∧
        l2 = { l with entries := l.entries ++ [e] } := by
  unfold DisplayList.create
  split <;> rename_i h <;> simp [h, eq_comm]

theorem DisplayList.create_eq_none {cap : Nat} {cfg : Cfg} {l : DisplayList} {e : Entry} :
    DisplayList.create cap cfg l e = none ↔
      ¬ (DisplayList.usedBytes cfg l + entrySize cfg e ≤ cap) := by
  unfold DisplayList.create
  split <;> rename_i h <;> simp [h]

/-- appendStreamCommand is atomic: it either appends both records and
returns true or returns false leaving the display list unchanged. -/
theorem appendStreamCommand_atomic (cap : Nat) (cfg : Cfg) (dl : DisplayList)
    (op : Nat) (arg : Entry) :
    AtomicAppend dl op arg (appendStreamCommand cap cfg dl op arg) := by
  by_cases hA : DisplayList.usedBytes cfg dl + cfg.szSCT ≤ cap
  · by_cases hB : DisplayList.usedBytes cfg dl + cfg.szSCT + entrySize cfg arg ≤ cap
    · left
      constructor <;> simp [appendStreamCommand, DisplayList.create, entrySize_op,
        DisplayList.usedBytes_concat, hA, hB]
    · right
      constructor <;> simp [appendStreamCommand, DisplayList.create, entrySize_op,
        DisplayList.usedBytes_concat, hA, hB, DisplayList.remove_concat]
  · by_cases hB : DisplayList.usedBytes cfg dl + entrySize cfg arg ≤ cap
    · right
      constructor <;> simp [appendStreamCommand, DisplayList.create, entrySize_op,
        hA, hB, DisplayList.remove_concat]
    · right
      constructor <;> simp [appendStreamCommand, DisplayList.create, entrySize_op, hA, hB]

/-- appendStreamCommand succeeds exactly when the command word and the
payload record both fit below the capacity. -/
theorem appendStreamCommand_true_iff (cap : Nat) (cfg : Cfg) (dl : DisplayList)
    (op : Nat) (arg : Entry) :
    (appendStreamCommand cap cfg dl op arg).1 = true ↔
      DisplayList.usedBytes cfg dl + cfg.szSCT + entrySize cfg arg ≤ cap := by
  by_cases hA : DisplayList.usedBytes cfg dl + cfg.szSCT ≤ cap
  · by_cases hB : DisplayList.usedBytes cfg dl + cfg.szSCT + entrySize cfg arg ≤ cap
    · simp [appendStreamCommand, DisplayList.create, entrySize_op,
        DisplayList.usedBytes_concat, hA, hB]
    · simp [appendStreamCommand, DisplayList.create, entrySize_op,
        DisplayList.usedBytes_concat, hA, hB]
  · by_cases hB : DisplayList.usedBytes cfg dl + entrySize cfg arg ≤ cap
    · simp [appendStreamCommand, DisplayList.create, entrySize_op, hA, hB]
      omega
    · simp [appendStreamCommand, DisplayList.create, entrySize_op, hA, hB]
      omega

theorem Renderer.listsDistinct_withFront (r : Renderer) (l : DisplayList) :
    (r.withFront l).ListsDistinct ↔ r.ListsDistinct := by
  unfold Renderer.ListsDistinct
  rw [(Renderer.withFront_fields r l).1, (Renderer.withFront_fields r l).2.1]

theorem Renderer.listsDistinct_withBack (r : Renderer) (l : DisplayList) :
    (r.withBack l).ListsDistinct ↔ r.ListsDistinct := by
  unfold Renderer.ListsDistinct
  rw [(Renderer.withBack_fields r l).1, (Renderer.withBack_fields r l).2.1]

/-- The promotion step leaves the back list, the list indices and the
registers alone. -/
theorem promote_preserves (cfg : Cfg) (r : Renderer) (hd : r.ListsDistinct) :
    (promote cfg r).back = r.back ∧ (promote cfg r).frontList = r.frontList ∧
    (promote cfg r).backList = r.backList ∧ (promote cfg r).confReg1 = r.confReg1 ∧
    (promote cfg r).confReg2 = r.confReg2 ∧ (promote cfg r).ListsDistinct := by
  unfold promote
  split
  · refine ⟨Renderer.back_withFront _ _ hd, (Renderer.withFront_fields r _).1,
      (Renderer.withFront_fields r _).2.1, (Renderer.withFront_fields r _).2.2.2.2.2.1,
      (Renderer.withFront_fields r _).2.2.2.2.2.2, ?_⟩
    show (r.withFront r.front.transfer).ListsDistinct
    exact (Renderer.listsDistinct_withFront _ _).mpr hd
  · exact ⟨rfl, rfl, rfl, rfl, rfl, hd⟩

/-- The TRANSFERRING branch of the walker leaves the back list, the list
indices and the registers alone. -/
theorem tickTransferring_preserves {cfg : Cfg} {calcLI : CalcFn} {r1 : Renderer}
    {b : Bool} {r2 : Renderer} {tr : List BusEvent} (hd : r1.ListsDistinct)
    (h : tickTransferring cfg calcLI r1 = some (b, r2, tr)) :
    r2.back = r1.back ∧ r2.frontList = r1.frontList ∧ r2.backList = r1.backList ∧
    r2.confReg1 = r1.confReg1 ∧ r2.confReg2 = r1.confReg2 := by
  unfold tickTransferring at h
  split at h
  · simp only [Option.some.injEq, Prod.mk.injEq] at h
    obtain ⟨rfl, rfl, rfl⟩ := h
    exact ⟨rfl, rfl, rfl, rfl, rfl⟩
  · cases hb : bandFill cfg calcLI r1 with
    | none => rw [hb] at h; exact absurd h (by simp)
    | some res =>
      obtain ⟨fl2, ul2, cur2⟩ := res
      rw [hb] at h
      simp only at h
      split at h
      · split at h
        · simp only [Option.some.injEq, Prod.mk.injEq] at h
          obtain ⟨rfl, rfl, rfl⟩ := h
          exact ⟨Renderer.back_withFront _ _ hd, (Renderer.withFront_fields r1 _).1,
            (Renderer.withFront_fields r1 _).2.1, (Renderer.withFront_fields r1 _).2.2.2.2.2.1,
            (Renderer.withFront_fields r1 _).2.2.2.2.2.2⟩
        · simp only [Option.some.injEq, Prod.mk.injEq] at h
          obtain ⟨rfl, rfl, rfl⟩ := h
          exact ⟨Renderer.back_withFront _ _ hd, (Renderer.withFront_fields r1 _).1,
            (Renderer.withFront_fields r1 _).2.1, (Renderer.withFront_fields r1 _).2.2.2.2.2.1,
            (Renderer.withFront_fields r1 _).2.2.2.2.2.2⟩
      · simp only [Option.some.injEq, Prod.mk.injEq] at h
        obtain ⟨rfl, rfl, rfl⟩ := h
        exact ⟨Renderer.back_withFront _ _ hd, (Renderer.withFront_fields r1 _).1,
          (Renderer.withFront_fields r1 _).2.1, (Renderer.withFront_fields r1 _).2.2.2.2.2.1,
          (Renderer.withFront_fields r1 _).2.2.2.2.2.2⟩

/-- A walker tick leaves the back list, the list indices and the
registers alone. -/
theorem uploadDisplayList_preserves {cfg : Cfg} {calcLI : CalcFn} {cts : Bool}
    {r : Renderer} {b : Bool} {r2 : Renderer} {tr : List BusEvent} (hd : r.ListsDistinct)
    (h : uploadDisplayList cfg calcLI cts r = some (b, r2, tr)) :
    r2.back = r.back ∧ r2.frontList = r.frontList ∧ r2.backList = r.backList ∧
    r2.confReg1 = r.confReg1 ∧ r2.confReg2 = r.confReg2 := by
  unfold uploadDisplayList at h
  split at h
  · simp only [Option.some.injEq, Prod.mk.injEq] at h
    obtain ⟨rfl, rfl, rfl⟩ := h
    exact ⟨rfl, rfl, rfl, rfl, rfl⟩
  · obtain ⟨hp1, hp2, hp3, hp4, hp5, hp6⟩ := promote_preserves cfg r hd
    dsimp only at h
    split at h
    · obtain ⟨q1, q2, q3, q4, q5⟩ := tickTransferring_preserves hp6 h
      exact ⟨q1.trans hp1, q2.trans hp2, q3.trans hp3, q4.trans hp4, q5.trans hp5⟩
    · simp only [Option.some.injEq, Prod.mk.injEq] at h
      obtain ⟨rfl, rfl, rfl⟩ := h
      exact ⟨hp1, hp2, hp3, hp4, hp5⟩

/-- The back-list outcome of any appendBack call is atomic. -/
theorem appendBack_atomic (cfg : Cfg) (r : Renderer) (op : Nat) (arg : Entry) :
    AtomicAppend r.back op arg
      ((appendBack cfg r op arg).1, ((appendBack cfg r op arg).2).back) := by
  have h := appendStreamCommand_atomic cfg.displayListSize cfg r.back op arg
  show AtomicAppend r.back op arg
    ((appendStreamCommand cfg.displayListSize cfg r.back op arg).1,
      (Renderer.withBack r (appendStreamCommand cfg.displayListSize cfg r.back op arg).2).back)
  rw [Renderer.back_withBack]
  exact h

/-- C4: every encoder mutator that appends an opcode plus payload pair to
the back list is atomic.  The first conjunct settles the shared
appendStreamCommand helper for every capacity, opcode and payload; the
remaining conjuncts instantiate it for each mutator of the source: the
SET_REG variants, the ConfReg1 and ConfReg2 setters, useTexture and the
append inside drawTriangle.  Each outcome either appends exactly the
opcode and its payload and returns true, or returns false with the back
list unchanged in contents, write position, read position and state. -/
theorem claim_C4 (cfg : Cfg) (r : Renderer) :
    (∀ cap dl op arg, AtomicAppend dl op arg (appendStreamCommand cap cfg dl op arg)) ∧
    (∀ color, AtomicAppend r.back StreamCommand.SET_COLOR_BUFFER_CLEAR_COLOR
      (Entry.reg (convertColor color))
      ((setClearColor cfg r color).1, ((setClearColor cfg r color).2).back)) ∧
    (∀ depth, AtomicAppend r.back StreamCommand.SET_DEPTH_BUFFER_CLEAR_DEPTH
      (Entry.reg (depth % 65536))
      ((setClearDepth cfg r depth).1, ((setClearDepth cfg r depth).2).back)) ∧
    (∀ color, AtomicAppend r.back StreamCommand.SET_TEX_ENV_COLOR
      (Entry.reg (convertColor color))
      ((setTexEnvColor cfg r color).1, ((setTexEnvColor cfg r color).2).back)) ∧
    (∀ flag, AtomicAppend r.back StreamCommand.SET_CONF_REG1
      (Entry.reg (ConfReg1.pack { r.confReg1 with depthMask := flag }))
      ((setDepthMask cfg r flag).1, ((setDepthMask cfg r flag).2).back)) ∧
    (∀ enable, AtomicAppend r.back StreamCommand.SET_CONF_REG1
      (Entry.reg (ConfReg1.pack { r.confReg1 with enableDepthTest := enable }))
      ((enableDepthTest cfg r enable).1, ((enableDepthTest cfg r enable).2).back)) ∧
    (∀ cr cg cb ca, AtomicAppend r.back StreamCommand.SET_CONF_REG1
      (Entry.reg (ConfReg1.pack { r.confReg1 with
        colorMaskA := ca, colorMaskB := cb, colorMaskG := cg, colorMaskR := cr }))
      ((setColorMask cfg r cr cg cb ca).1, ((setColorMask cfg r cr cg cb ca).2).back)) ∧
    (∀ func, AtomicAppend r.back StreamCommand.SET_CONF_REG1
      (Entry.reg (ConfReg1.pack { r.confReg1 with depthFunc := func % 8 }))
      ((setDepthFunc cfg r func).1, ((setDepthFunc cfg r func).2).back)) ∧
    (∀ func ref, AtomicAppend r.back StreamCommand.SET_CONF_REG1
      (Entry.reg (ConfReg1.pack { r.confReg1 with
        alphaFunc := func % 8, referenceAlphaValue := ref % 16 }))
      ((setAlphaFunc cfg r func ref).1, ((setAlphaFunc cfg r func ref).2).back)) ∧
    (∀ target pname param, AtomicAppend r.back StreamCommand.SET_CONF_REG2
      (Entry.reg (ConfReg2.pack { r.confReg2 with texEnvFunc := param % 8 }))
      ((setTexEnv cfg r target pname param).1,
        ((setTexEnv cfg r target pname param).2).back)) ∧
    (∀ sfactor dfactor, AtomicAppend r.back StreamCommand.SET_CONF_REG2
      (Entry.reg (ConfReg2.pack { r.confReg2 with
        blendFuncSFactor := sfactor % 16, blendFuncDFactor := dfactor % 16 }))
      ((setBlendFunc cfg r sfactor dfactor).1,
        ((setBlendFunc cfg r sfactor dfactor).2).back)) ∧
    (∀ mode, AtomicAppend r.back StreamCommand.SET_CONF_REG2
      (Entry.reg (ConfReg2.pack { r.confReg2 with
        texClampS := mode = TextureWrapMode.CLAMP_TO_EDGE }))
      ((setTextureWrapModeS cfg r mode).1, ((setTextureWrapModeS cfg r mode).2).back)) ∧
    (∀ mode, AtomicAppend r.back StreamCommand.SET_CONF_REG2
      (Entry.reg (ConfReg2.pack { r.confReg2 with
        texClampT := mode = TextureWrapMode.CLAMP_TO_EDGE }))
      ((setTextureWrapModeT cfg r mode).1, ((setTextureWrapModeT cfg r mode).2).back)) ∧
    (∀ pixels w op, texStreamOp w = some op →
      AtomicAppend r.back op (Entry.texArg ⟨pixels, (w * w : Nat)⟩)
        ((useTexture cfg r pixels w w).1, ((useTexture cfg r pixels w w).2).back)) ∧
    (∀ calcLI cts shape color b r2 tr, r.ListsDistinct →
      drawTriangle cfg calcLI cts r (some shape) color = some (b, r2, tr) →
      AtomicAppend r.back (StreamCommand.TRIANGLE_FULL cfg)
        (Entry.tri ⟨shape, convertColor color⟩) (b, r2.back)) := by
  refine ⟨fun cap dl op arg => appendStreamCommand_atomic cap cfg dl op arg,
    fun color => appendBack_atomic cfg r _ _,
    fun depth => appendBack_atomic cfg r _ _,
    fun color => appendBack_atomic cfg r _ _,
    fun flag => appendBack_atomic cfg _ _ _,
    fun enable => appendBack_atomic cfg _ _ _,
    fun cr cg cb ca => appendBack_atomic cfg _ _ _,
    fun func => appendBack_atomic cfg _ _ _,
    fun func ref => appendBack_atomic cfg _ _ _,
    fun target pname param => appendBack_atomic cfg _ _ _,
    fun sfactor dfactor => appendBack_atomic cfg _ _ _,
    fun mode => appendBack_atomic cfg _ _ _,
    fun mode => appendBack_atomic cfg _ _ _,
    ?_, ?_⟩
  · intro pixels w op hop
    show AtomicAppend r.back op (Entry.texArg ⟨pixels, (w * w : Nat)⟩)
      ((useTexture cfg r pixels w w).1, ((useTexture cfg r pixels w w).2).back)
    unfold useTexture
    rw [if_neg (by simp), hop]
    exact appendBack_atomic cfg r _ _
  · intro calcLI cts shape color b r2 tr hd h
    unfold drawTriangle at h
    dsimp only at h
    cases hu : uploadDisplayList cfg calcLI cts
        (appendBack cfg r (StreamCommand.TRIANGLE_FULL cfg)
          (Entry.tri ⟨shape, convertColor color⟩)).2 with
    | none => rw [hu] at h; exact absurd h (by simp)
    | some res =>
      obtain ⟨b2, r2x, tr2⟩ := res
      rw [hu] at h
      simp only [Option.some.injEq, Prod.mk.injEq] at h
      obtain ⟨rfl, rfl, rfl⟩ := h
      have hd2 : ((appendBack cfg r (StreamCommand.TRIANGLE_FULL cfg)
          (Entry.tri ⟨shape, convertColor color⟩)).2).ListsDistinct := by
        show (Renderer.withBack r _).ListsDistinct
        exact (Renderer.listsDistinct_withBack _ _).mpr hd
      have hp := (uploadDisplayList_preserves hd2 hu).1
      rw [hp]
      exact appendBack_atomic cfg r _ _

/-- C4 witness: the generic conjunct applied at a concrete configuration,
list and payload, and the setter conjuncts observed on a concrete
renderer. -/
theorem claim_C4_witness :
    AtomicAppend ⟨[], 0, LState.free⟩ 5 (Entry.reg 7)
      (appendStreamCommand 16 ⟨16, 1, 128, 4, 8, 8, 4⟩ ⟨[], 0, LState.free⟩ 5 (Entry.reg 7)) :=
  (claim_C4 ⟨16, 1, 128, 4, 8, 8, 4⟩
    ⟨⟨[], 0, LState.free⟩, ⟨[], 0, LState.free⟩, 0, 1, ⟨[], 0, LState.free⟩, 0,
      ⟨0, 0⟩, ⟨false, 0, 0, 0, false, false, false, false, false⟩,
      ⟨false, 0, 0, 0, false, false⟩⟩).1 16 ⟨[], 0, LState.free⟩ 5 (Entry.reg 7)

theorem texStreamOp_eq_none_iff (w : Nat) :
    texStreamOp w = none ↔ ¬ (w = 32 ∨ w = 64 ∨ w = 128 ∨ w = 256) := by
  unfold texStreamOp
  by_cases h1 : w = 256 <;> by_cases h2 : w = 128 <;> by_cases h3 : w = 64 <;>
    by_cases h4 : w = 32 <;> simp_all

/-- C8: useTexture accepts exactly the square textures of width 32, 64,
128 or 256 whose opcode plus TextureStreamArg append fits in the back
list; the size-class opcodes are the four TEXTURE_STREAM constants; on
success exactly the opcode and the argument record carrying the pixel
pointer and the pixel count w * h are appended; on a non-square or
unsupported size the call fails and the driver state is untouched. -/
theorem claim_C8 (cfg : Cfg) (r : Renderer) (pixels : Int) (w h : Nat) :
    (texStreamOp 32 = some StreamCommand.TEXTURE_STREAM_32x32 ∧
      texStreamOp 64 = some StreamCommand.TEXTURE_STREAM_64x64 ∧
      texStreamOp 128 = some StreamCommand.TEXTURE_STREAM_128x128 ∧
      texStreamOp 256 = some StreamCommand.TEXTURE_STREAM_256x256 ∧
      (¬ (w = 32 ∨ w = 64 ∨ w = 128 ∨ w = 256) → texStreamOp w = none)) ∧
    ((useTexture cfg r pixels w h).1 = true ↔
      (w = h ∧ (w = 32 ∨ w = 64 ∨ w = 128 ∨ w = 256) ∧
        DisplayList.usedBytes cfg r.back + cfg.szSCT + cfg.szTex ≤ cfg.displayListSize)) ∧
    (∀ op, texStreamOp w = some op → (useTexture cfg r pixels w h).1 = true →
      (useTexture cfg r pixels w h).2 = r.withBack { r.back with
        entries := r.back.entries ++ [Entry.op op, Entry.texArg ⟨pixels, (w * h : Nat)⟩] }) ∧
    ((w ≠ h ∨ texStreamOp w = none) →
      (useTexture cfg r pixels w h).1 = false ∧ (useTexture cfg r pixels w h).2 = r) := by
  refine ⟨⟨rfl, rfl, rfl, rfl, fun hw => (texStreamOp_eq_none_iff w).mpr hw⟩, ?_, ?_, ?_⟩
  · by_cases hwh : w = h
    · subst hwh
      cases ht : texStreamOp w with
      | none =>
        have hw := (texStreamOp_eq_none_iff w).mp ht
        simp [useTexture, ht, hw]
      | some op =>
        have hw : w = 32 ∨ w = 64 ∨ w = 128 ∨ w = 256 := by
          by_contra hc
          rw [(texStreamOp_eq_none_iff w).mpr hc] at ht
          exact absurd ht (by simp)
        have hiff := appendStreamCommand_true_iff cfg.displayListSize cfg r.back op
          (Entry.texArg ⟨pixels, (w * w : Nat)⟩)
        rw [useTexture, if_neg (by simp), ht]
        show (appendBack cfg r op (Entry.texArg ⟨pixels, (w * w : Nat)⟩)).1 = true ↔ _
        unfold appendBack
        dsimp only
        rw [hiff]
        simp [hw, entrySize]
    · simp [useTexture, hwh]
  · intro op hop htrue
    have hwh : w = h := by
      by_contra hc
      rw [useTexture, if_pos hc] at htrue
      exact absurd htrue (by simp)
    subst hwh
    rw [useTexture, if_neg (by simp), hop] at htrue ⊢
    have hatomic := appendStreamCommand_atomic cfg.displayListSize cfg r.back op
      (Entry.texArg ⟨pixels, (w * w : Nat)⟩)
    rcases hatomic with ⟨_, hres⟩ | ⟨hf, _⟩
    · show Renderer.withBack r _ = _
      rw [hres]
    · exfalso
      have h1 : (appendStreamCommand cfg.displayListSize cfg r.back op
          (Entry.texArg ⟨pixels, (w * w : Nat)⟩)).1 = true := htrue
      rw [hf] at h1
      exact absurd h1 (by simp)
  · intro hbad
    rcases hbad with hne | hnone
    · simp [useTexture, hne]
    · by_cases hwh : w = h
      · subst hwh
        simp [useTexture, hnone]
      · simp [useTexture, hwh]

/-- C8 witness: the theorem applied to a 32 by 32 texture on a fresh
renderer, where the append fits and succeeds. -/
theorem claim_C8_witness :
    texStreamOp 32 = some StreamCommand.TEXTURE_STREAM_32x32 ∧
    (useTexture cfg0 r0 100 32 32).1 = true ∧
    (useTexture cfg0 r0 100 32 32).2 = r0.withBack { r0.back with
      entries := r0.back.entries ++
        [Entry.op StreamCommand.TEXTURE_STREAM_32x32, Entry.texArg ⟨100, 1024⟩] } :=
  ⟨rfl, by decide,
    (claim_C8 cfg0 r0 100 32 32).2.2.1 StreamCommand.TEXTURE_STREAM_32x32 rfl (by decide)⟩

/-- C1 (amended): when the FRAMEBUFFER_COMMIT or FRAMEBUFFER_COLOR opcode
does not fit in the back list, commit clears the back list and returns at
once: no drain tick runs, no bus traffic happens, no enqueue or
front-back swap takes place, the front list and every other state
component is untouched, and the cleared back list is FREE.  The source
commit is void, so no failure value is returned to the caller. -/
theorem claim_C1 (cfg : Cfg) (calcLI : CalcFn) (ctsSeq : Nat → Bool) (fuel : Nat)
    (r : Renderer) (hd : r.ListsDistinct)
    (hfull : ¬ (DisplayList.usedBytes cfg r.back + cfg.szSCT ≤ cfg.displayListSize)) :
    commit cfg calcLI ctsSeq fuel r = some (r.withBack r.back.clear, []) ∧
    (r.withBack r.back.clear).front = r.front ∧
    (r.withBack r.back.clear).frontList = r.frontList ∧
    (r.withBack r.back.clear).backList = r.backList ∧
    (r.withBack r.back.clear).back = r.back.clear ∧
    (r.withBack r.back.clear).back.state = LState.free ∧
    (r.withBack r.back.clear).displayListUpload = r.displayListUpload ∧
    (r.withBack r.back.clear).uploadIndexPosition = r.uploadIndexPosition ∧
    (r.withBack r.back.clear).textureStreamArg = r.textureStreamArg := by
  have hn : r.back.create cfg.displayListSize cfg
      (Entry.op (StreamCommand.FRAMEBUFFER_COMMIT ||| StreamCommand.FRAMEBUFFER_COLOR)) = none := by
    rw [DisplayList.create_eq_none, entrySize_op]
    exact hfull
  refine ⟨?_, Renderer.front_withBack _ _ hd, (Renderer.withBack_fields r _).1,
    (Renderer.withBack_fields r _).2.1, Renderer.back_withBack _ _, ?_,
    (Renderer.withBack_fields r _).2.2.1, (Renderer.withBack_fields r _).2.2.2.1,
    (Renderer.withBack_fields r _).2.2.2.2.1⟩
  · rw [commit, hn]
  · rw [Renderer.back_withBack]
    rfl

/-- C1 counterexample to the claim as stated: the source commit method is
declared void, so its return type is Unit, not Bool; the failure cannot be
surfaced as a false return value. -/
theorem claim_C1_cex : CommitReturnType ≠ Bool := by
  intro h
  unfold CommitReturnType at h
  let e : Unit ≃ Bool := Equiv.cast h
  have h1 : true = e (e.symm true) := (e.apply_symm_apply true).symm
  have h2 : false = e (e.symm false) := (e.apply_symm_apply false).symm
  rw [Subsingleton.elim (e.symm true) (e.symm false)] at h1
  rw [← h2] at h1
  exact absurd h1 (by decide)

/-- C1 witness: the amended theorem applied to a renderer whose back list
is full for the tiny 8-byte capacity. -/
theorem claim_C1_witness :
    rFull.ListsDistinct ∧
    ¬ (DisplayList.usedBytes cfgSmall rFull.back + cfgSmall.szSCT ≤ cfgSmall.displayListSize) ∧
    commit cfgSmall calc0 cts0 3 rFull = some (rFull.withBack rFull.back.clear, []) ∧
    (rFull.withBack rFull.back.clear).front = rFull.front :=
  ⟨Or.inl ⟨rfl, by decide⟩, by decide,
    (claim_C1 cfgSmall calc0 cts0 3 rFull (Or.inl ⟨rfl, by decide⟩) (by decide)).1,
    (claim_C1 cfgSmall calc0 cts0 3 rFull (Or.inl ⟨rfl, by decide⟩) (by decide)).2.1⟩

/-- C7 (amended): a drawTriangle call whose triangle the rasterizer
reports invisible returns success immediately, without touching any state
and without invoking the band walker; a call whose triangle is visible
appends the record pair and then runs exactly one walker tick before
returning the append result. -/
theorem claim_C7 (cfg : Cfg) (calcLI : CalcFn) (cts : Bool) (r : Renderer) (color : Vec4i) :
    (drawTriangle cfg calcLI cts r none color = some (true, r, [])) ∧
    (∀ shape b r2 tr,
      uploadDisplayList cfg calcLI cts
        ((appendBack cfg r (StreamCommand.TRIANGLE_FULL cfg)
          (Entry.tri ⟨shape, convertColor color⟩)).2) = some (b, r2, tr) →
      drawTriangle cfg calcLI cts r (some shape) color =
        some ((appendBack cfg r (StreamCommand.TRIANGLE_FULL cfg)
          (Entry.tri ⟨shape, convertColor color⟩)).1, r2, tr)) := by
  refine ⟨rfl, ?_⟩
  intro shape b r2 tr h
  unfold drawTriangle
  dsimp only
  rw [h]

/-- C7 counterexample to the claim as stated: on a renderer whose front
list is queued and with the bus clear to send, a walker tick would move
the front list to TRANSFERRING, but drawTriangle on an invisible triangle
returns with the state untouched and no bus traffic, so no walker step
ran. -/
theorem claim_C7_cex :
    drawTriangle cfg0 calc0 true rQ none colorZ = some (true, rQ, []) ∧
    rQ.front.state = LState.queued ∧
    (uploadDisplayList cfg0 calc0 true rQ).map (fun p => (p.2.1).front.state)
      ≠ some LState.queued := by
  refine ⟨rfl, rfl, ?_⟩
  decide

/-- C7 witness: the amended theorem applied to a fresh renderer and a
visible triangle. -/
theorem claim_C7_witness :
    uploadDisplayList cfg0 calc0 true
      ((appendBack cfg0 r0 (StreamCommand.TRIANGLE_FULL cfg0)
        (Entry.tri ⟨7, convertColor colorZ⟩)).2) =
      some (false, (appendBack cfg0 r0 (StreamCommand.TRIANGLE_FULL cfg0)
        (Entry.tri ⟨7, convertColor colorZ⟩)).2, []) ∧
    drawTriangle cfg0 calc0 true r0 (some 7) colorZ =
      some ((appendBack cfg0 r0 (StreamCommand.TRIANGLE_FULL cfg0)
        (Entry.tri ⟨7, convertColor colorZ⟩)).1,
        (appendBack cfg0 r0 (StreamCommand.TRIANGLE_FULL cfg0)
          (Entry.tri ⟨7, convertColor colorZ⟩)).2, []) :=
  ⟨by decide,
    (claim_C7 cfg0 calc0 true r0 colorZ).2 7 false
      ((appendBack cfg0 r0 (StreamCommand.TRIANGLE_FULL cfg0)
        (Entry.tri ⟨7, convertColor colorZ⟩)).2) [] (by decide)⟩

/-! Lemmas about the reading cursor of the arena, used by the fill-loop
claims. -/

theorem DisplayList.getNextOp_eq (l : DisplayList) (v : Nat)
    (h : l.entries[l.readIdx]? = some (Entry.op v)) :
    l.getNextOp = some (v, { l with readIdx := l.readIdx + 1 }) := by
  unfold DisplayList.getNextOp
  rw [h]

theorem DisplayList.getNextTri_eq (l : DisplayList) (t : RasterizedTriangle)
    (h : l.entries[l.readIdx]? = some (Entry.tri t)) :
    l.getNextTri = some (t, { l with readIdx := l.readIdx + 1 }) := by
  unfold DisplayList.getNextTri
  rw [h]

theorem DisplayList.getNextTex_eq (l : DisplayList) (a : TextureStreamArg)
    (h : l.entries[l.readIdx]? = some (Entry.texArg a)) :
    l.getNextTex = some (a, { l with readIdx := l.readIdx + 1 }) := by
  unfold DisplayList.getNextTex
  rw [h]

theorem DisplayList.getNextReg_eq (l : DisplayList) (v : Nat)
    (h : l.entries[l.readIdx]? = some (Entry.reg v)) :
    l.getNextReg = some (v, { l with readIdx := l.readIdx + 1 }) := by
  unfold DisplayList.getNextReg
  rw [h]

/-- The fill loop only ever extends the upload list it is handed: every
record present when an iteration starts is still present in the result
(removes only ever pop records pushed by the same iteration). -/
theorem fillLoop_extends (cfg : Cfg) (calcLI : CalcFn) (idx : Nat) :
    ∀ fuel fl ul cur res,
      fillLoop cfg calcLI idx fuel fl ul cur = some res →
      ∃ tail, res.2.1.entries = ul.entries ++ tail := by
  intro fuel
  induction fuel with
  | zero =>
    intro fl ul cur res h
    simp only [fillLoop, Option.some.injEq] at h
    exact ⟨[], by rw [← h]; simp⟩
  | succ fuel IH =>
    intro fl ul cur res h
    simp only [fillLoop] at h
    by_cases hE : hasEnoughSpace HARDWARE_BUFFER_SIZE cfg ul = false
    · rw [if_pos hE] at h
      simp only [Option.some.injEq] at h
      exact ⟨[], by rw [← h]; simp⟩
    · rw [if_neg hE] at h
      cases hop : fl.getNextOp with
      | none =>
        rw [hop] at h
        simp only [Option.some.injEq] at h
        exact ⟨[], by rw [← h]; simp⟩
      | some p =>
        obtain ⟨opv, fl1⟩ := p
        rw [hop] at h
        dsimp only at h
        cases hcr : ul.create HARDWARE_BUFFER_SIZE cfg (Entry.op opv) with
        | none => rw [hcr] at h; simp at h
        | some ul1 =>
          obtain ⟨hle1, rfl⟩ := DisplayList.create_eq_some.mp hcr
          rw [hcr] at h
          dsimp only at h
          by_cases hc1 : opv &&& StreamCommand.STREAM_COMMAND_OP_MASK
              = StreamCommand.TRIANGLE_STREAM
          · rw [if_pos hc1] at h
            cases htr : DisplayList.getNextTri fl1 with
            | none => rw [htr] at h; simp at h
            | some q =>
              obtain ⟨t, fl2⟩ := q
              rw [htr] at h
              dsimp only at h
              by_cases hfit : DisplayList.usedBytes cfg
                  { ul with entries := ul.entries ++ [Entry.op opv] } + cfg.szTri
                  ≤ HARDWARE_BUFFER_SIZE
              · rw [if_pos hfit] at h
                cases hcl : calcLI t ((idx * cfg.lineResolution) % 65536)
                    (((idx + 1) * cfg.lineResolution) % 65536) with
                | some t2 =>
                  rw [hcl] at h
                  dsimp only at h
                  obtain ⟨tail, htail⟩ := IH _ _ _ _ h
                  refine ⟨[Entry.op opv, Entry.tri t2] ++ tail, ?_⟩
                  rw [htail]
                  simp
                | none =>
                  rw [hcl] at h
                  dsimp only at h
                  exact IH _ _ _ _ h
              · rw [if_neg hfit] at h; simp at h
          · rw [if_neg hc1] at h
            by_cases hc2 : opv &&& StreamCommand.STREAM_COMMAND_OP_MASK
                  = StreamCommand.FRAMEBUFFER_OP
                ∨ opv &&& StreamCommand.STREAM_COMMAND_OP_MASK = StreamCommand.NOP
            · rw [if_pos hc2] at h
              obtain ⟨tail, htail⟩ := IH _ _ _ _ h
              refine ⟨[Entry.op opv] ++ tail, ?_⟩
              rw [htail]
              simp
            · rw [if_neg hc2] at h
              by_cases hc3 : opv &&& StreamCommand.STREAM_COMMAND_OP_MASK
                  = StreamCommand.TEXTURE_STREAM
              · rw [if_pos hc3] at h
                cases htx : DisplayList.getNextTex fl1 with
                | none => rw [htx] at h; simp at h
                | some q =>
                  obtain ⟨ta, fl2⟩ := q
                  rw [htx] at h
                  dsimp only at h
                  by_cases hdp : ta.pixels + ta.remainingPixels = cur.pixels
                  · rw [if_pos hdp] at h
                    rw [DisplayList.remove_concat] at h
                    exact IH _ _ _ _ h
                  · rw [if_neg hdp] at h
                    simp only [Option.some.injEq] at h
                    refine ⟨[Entry.op opv], ?_⟩
                    rw [← h]
              · rw [if_neg hc3] at h
                by_cases hc4 : opv &&& StreamCommand.STREAM_COMMAND_OP_MASK
                    = StreamCommand.SET_REG
                · rw [if_pos hc4] at h
                  cases hcr2 : DisplayList.create HARDWARE_BUFFER_SIZE cfg
                      { ul with entries := ul.entries ++ [Entry.op opv] } (Entry.reg 0) with
                  | none => rw [hcr2] at h; simp at h
                  | some ulx =>
                    rw [hcr2] at h
                    dsimp only at h
                    cases hrg : DisplayList.getNextReg fl1 with
                    | none => rw [hrg] at h; simp at h
                    | some q =>
                      obtain ⟨v, fl2⟩ := q
                      rw [hrg] at h
                      dsimp only at h
                      obtain ⟨tail, htail⟩ := IH _ _ _ _ h
                      refine ⟨[Entry.op opv, Entry.reg v] ++ tail, ?_⟩
                      rw [htail]
                      simp
                · rw [if_neg hc4] at h
                  rw [DisplayList.remove_concat] at h
                  exact IH _ _ _ _ h

/-- C5: the texture-stream splitter step of the fill loop.  When the next
front-list record pair is a TEXTURE_STREAM opcode with payload ta, and the
dedup test finds that the previous upload of the same buffer ran to
completion (ta.pixels + ta.remainingPixels equals the cursor pixel
pointer), the cursor becomes the completed pair and the just-copied
opcode is removed from the upload list and the fill loop continues; in
every other case the cursor is replaced by ta and the loop stops for this
pass with the opcode kept in the upload list. -/
theorem claim_C5 (cfg : Cfg) (calcLI : CalcFn) (idx fuel : Nat)
    (fl ul : DisplayList) (cur : TextureStreamArg) (opv : Nat) (ta : TextureStreamArg)
    (hop : fl.entries[fl.readIdx]? = some (Entry.op opv))
    (hcls : opv &&& StreamCommand.STREAM_COMMAND_OP_MASK = StreamCommand.TEXTURE_STREAM)
    (htex : fl.entries[fl.readIdx + 1]? = some (Entry.texArg ta))
    (hspace : DisplayList.usedBytes cfg ul + cfg.szSCT + cfg.szTri ≤ HARDWARE_BUFFER_SIZE) :
    (ta.pixels + ta.remainingPixels = cur.pixels →
      fillLoop cfg calcLI idx (fuel + 1) fl ul cur =
        fillLoop cfg calcLI idx fuel { fl with readIdx := fl.readIdx + 2 } ul
          ⟨ta.pixels + ta.remainingPixels, 0⟩) ∧
    (ta.pixels + ta.remainingPixels ≠ cur.pixels →
      fillLoop cfg calcLI idx (fuel + 1) fl ul cur =
        some ({ fl with readIdx := fl.readIdx + 2 },
          { ul with entries := ul.entries ++ [Entry.op opv] }, ta)) := by
  have hE : hasEnoughSpace HARDWARE_BUFFER_SIZE cfg ul = true := by
    unfold hasEnoughSpace DisplayList.getFreeSpace
    rw [decide_eq_true_iff]
    omega
  have hop1 : fl.getNextOp = some (opv, { fl with readIdx := fl.readIdx + 1 }) :=
    DisplayList.getNextOp_eq fl opv hop
  have hcr : ul.create HARDWARE_BUFFER_SIZE cfg (Entry.op opv)
      = some { ul with entries := ul.entries ++ [Entry.op opv] } :=
    DisplayList.create_eq_some.mpr ⟨by rw [entrySize_op]; omega, rfl⟩
  have htex1 : DisplayList.getNextTex { fl with readIdx := fl.readIdx + 1 }
      = some (ta, { fl with readIdx := fl.readIdx + 2 }) := by
    have := DisplayList.getNextTex_eq { fl with readIdx := fl.readIdx + 1 } ta htex
    simpa using this
  constructor
  · intro hdedup
    simp [fillLoop, hE, hop1, hcr, hcls, htex1, hdedup, DisplayList.remove_concat,
      StreamCommand.TEXTURE_STREAM, StreamCommand.TRIANGLE_STREAM,
      StreamCommand.FRAMEBUFFER_OP, StreamCommand.NOP, StreamCommand.SET_REG]
  · intro hne
    simp [fillLoop, hE, hop1, hcr, hcls, htex1, hne, DisplayList.remove_concat,
      StreamCommand.TEXTURE_STREAM, StreamCommand.TRIANGLE_STREAM,
      StreamCommand.FRAMEBUFFER_OP, StreamCommand.NOP, StreamCommand.SET_REG]

/-- C2: the triangle step of the fill loop for band idx.  When the next
front-list record pair is a TRIANGLE_STREAM opcode with payload t, the
walker copies the opcode, lets calcLineIncrement specialize t to the
scanline range from idx * LINE_RESOLUTION to (idx + 1) * LINE_RESOLUTION,
and the opcode and the specialized triangle stay in the upload list
exactly when the callback reports the band hit; on a miss both records
are rolled back and nothing is emitted for this triangle on this band. -/
theorem claim_C2 (cfg : Cfg) (calcLI : CalcFn) (idx fuel : Nat)
    (fl ul : DisplayList) (cur : TextureStreamArg) (opv : Nat) (t : RasterizedTriangle)
    (hop : fl.entries[fl.readIdx]? = some (Entry.op opv))
    (hcls : opv &&& StreamCommand.STREAM_COMMAND_OP_MASK = StreamCommand.TRIANGLE_STREAM)
    (htri : fl.entries[fl.readIdx + 1]? = some (Entry.tri t))
    (hspace : DisplayList.usedBytes cfg ul + cfg.szSCT + cfg.szTri ≤ HARDWARE_BUFFER_SIZE)
    (hband : (idx + 1) * cfg.lineResolution < 65536) :
    (∀ t2, calcLI t (idx * cfg.lineResolution) ((idx + 1) * cfg.lineResolution) = some t2 →
      fillLoop cfg calcLI idx (fuel + 1) fl ul cur =
        fillLoop cfg calcLI idx fuel { fl with readIdx := fl.readIdx + 2 }
          { ul with entries := ul.entries ++ [Entry.op opv, Entry.tri t2] } cur) ∧
    (calcLI t (idx * cfg.lineResolution) ((idx + 1) * cfg.lineResolution) = none →
      fillLoop cfg calcLI idx (fuel + 1) fl ul cur =
        fillLoop cfg calcLI idx fuel { fl with readIdx := fl.readIdx + 2 } ul cur) ∧
    (∀ t2 res, calcLI t (idx * cfg.lineResolution) ((idx + 1) * cfg.lineResolution) = some t2 →
      fillLoop cfg calcLI idx (fuel + 1) fl ul cur = some res →
      ∃ tail, res.2.1.entries = (ul.entries ++ [Entry.op opv, Entry.tri t2]) ++ tail) := by
  have hE : hasEnoughSpace HARDWARE_BUFFER_SIZE cfg ul = true := by
    unfold hasEnoughSpace DisplayList.getFreeSpace
    rw [decide_eq_true_iff]
    omega
  have hop1 : fl.getNextOp = some (opv, { fl with readIdx := fl.readIdx + 1 }) :=
    DisplayList.getNextOp_eq fl opv hop
  have hcr : ul.create HARDWARE_BUFFER_SIZE cfg (Entry.op opv)
      = some { ul with entries := ul.entries ++ [Entry.op opv] } :=
    DisplayList.create_eq_some.mpr ⟨by rw [entrySize_op]; omega, rfl⟩
  have htri1 : DisplayList.getNextTri { fl with readIdx := fl.readIdx + 1 }
      = some (t, { fl with readIdx := fl.readIdx + 2 }) := by
    have := DisplayList.getNextTri_eq { fl with readIdx := fl.readIdx + 1 } t htri
    simpa using this
  have hfit : DisplayList.usedBytes cfg { ul with entries := ul.entries ++ [Entry.op opv] }
      + cfg.szTri ≤ HARDWARE_BUFFER_SIZE := by
    rw [DisplayList.usedBytes_concat, entrySize_op]
    omega
  have hlt1 : idx * cfg.lineResolution < 65536 :=
    lt_of_le_of_lt (Nat.mul_le_mul_right _ (Nat.le_succ idx)) hband
  have hys : (idx * cfg.lineResolution) % 65536 = idx * cfg.lineResolution :=
    Nat.mod_eq_of_lt hlt1
  have hye : ((idx + 1) * cfg.lineResolution) % 65536 = (idx + 1) * cfg.lineResolution :=
    Nat.mod_eq_of_lt hband
  have hmain : ∀ ans, calcLI t (idx * cfg.lineResolution) ((idx + 1) * cfg.lineResolution) = ans →
      fillLoop cfg calcLI idx (fuel + 1) fl ul cur =
        (match ans with
         | some t2 => fillLoop cfg calcLI idx fuel { fl with readIdx := fl.readIdx + 2 }
            { ul with entries := ul.entries ++ [Entry.op opv, Entry.tri t2] } cur
         | none => fillLoop cfg calcLI idx fuel { fl with readIdx := fl.readIdx + 2 } ul cur) := by
    intro ans hcalc
    cases ans with
    | some t2 =>
      simp [fillLoop, hE, hop1, hcr, hcls, htri1, hfit, hys, hye, hcalc,
        StreamCommand.TRIANGLE_STREAM]
    | none =>
      simp [fillLoop, hE, hop1, hcr, hcls, htri1, hfit, hys, hye, hcalc,
        StreamCommand.TRIANGLE_STREAM]
  refine ⟨?_, ?_, ?_⟩
  · intro t2 hcalc
    exact hmain (some t2) hcalc
  · intro hcalc
    exact hmain none hcalc
  · intro t2 res hcalc h
    rw [hmain (some t2) hcalc] at h
    obtain ⟨tail, htail⟩ := fillLoop_extends cfg calcLI idx fuel _ _ _ _ h
    exact ⟨tail, htail⟩

/-- C2 witness: the theorem applied to a front list holding one visible
triangle, band index 1 of the two-band configuration. -/
theorem claim_C2_witness :
    fillLoop cfg0 calcId 1 1 flC2 emptyDL ⟨0, 0⟩ =
      fillLoop cfg0 calcId 1 0 { flC2 with readIdx := 2 }
        { emptyDL with entries := emptyDL.entries ++ [Entry.op 16392, Entry.tri ⟨5, 0⟩] }
        ⟨0, 0⟩ :=
  (claim_C2 cfg0 calcId 1 0 flC2 emptyDL ⟨0, 0⟩ 16392 ⟨5, 0⟩ (by decide) (by decide)
    (by decide) (by decide) (by decide)).1 ⟨5, 0⟩ rfl

/-- C5 witness: the theorem applied to a front list holding one
texture-stream command whose buffer was just uploaded to completion, so
the dedup path fires. -/
theorem claim_C5_witness :
    fillLoop cfg0 calc0 1 1 flC5 emptyDL ⟨30, 0⟩ =
      fillLoop cfg0 calc0 1 0 { flC5 with readIdx := 2 } emptyDL ⟨30, 0⟩ :=
  (claim_C5 cfg0 calc0 1 0 flC5 emptyDL ⟨30, 0⟩ 4113 ⟨10, 20⟩ (by decide) (by decide)
    (by decide) (by decide)).1 (by decide)

/-- C3: the band indices of one committed frame.  On a queued front list
a tick with the bus clear first sets the band counter to
DISPLAY_LINES - 1 and moves the list to TRANSFERRING (first conjunct).  A
transferring fill tick emits startColorBufferTransfer with the current
counter; when the front list has reached its end the read position is
rewound and the counter strictly decreases by one (second conjunct, first
part), except at counter zero, where the front list is cleared and the
tick returns false, ending the frame (second part); a tick that does not
exhaust the front list leaves the counter unchanged (third part). -/
theorem claim_C3 (cfg : Cfg) (calcLI : CalcFn) (r : Renderer) :
    (r.front.state = LState.queued →
      uploadDisplayList cfg calcLI true r =
        uploadDisplayList cfg calcLI true
          { r.withFront r.front.transfer with uploadIndexPosition := cfg.displayLines - 1 } ∧
      (promote cfg r).uploadIndexPosition = cfg.displayLines - 1 ∧
      (promote cfg r).front.state = LState.transferring) ∧
    (∀ fl2 ul2 cur2, r.front.state = LState.transferring →
      ¬ r.textureStreamArg.remainingPixels > 0 →
      bandFill cfg calcLI r = some (fl2, ul2, cur2) →
      (fl2.atEnd = true → r.uploadIndexPosition ≠ 0 →
        uploadDisplayList cfg calcLI true r = some (true,
          { r.withFront fl2.resetGet with
            displayListUpload := ul2, textureStreamArg := cur2,
            uploadIndexPosition := r.uploadIndexPosition - 1 },
          [BusEvent.startColorBufferTransfer r.uploadIndexPosition,
           BusEvent.writeListData ul2.entries (ul2.getSize cfg)])) ∧
      (fl2.atEnd = true → r.uploadIndexPosition = 0 →
        uploadDisplayList cfg calcLI true r = some (false,
          { r.withFront fl2.resetGet.clear with
            displayListUpload := ul2, textureStreamArg := cur2 },
          [BusEvent.startColorBufferTransfer r.uploadIndexPosition,
           BusEvent.writeListData ul2.entries (ul2.getSize cfg)]) ∧
        ({ r.withFront fl2.resetGet.clear with
           displayListUpload := ul2, textureStreamArg := cur2 } : Renderer).front.state
          = LState.free) ∧
      (fl2.atEnd = false →
        uploadDisplayList cfg calcLI true r = some (true,
          { r.withFront fl2 with displayListUpload := ul2, textureStreamArg := cur2 },
          [BusEvent.startColorBufferTransfer r.uploadIndexPosition,
           BusEvent.writeListData ul2.entries (ul2.getSize cfg)]))) := by
  constructor
  · intro hq
    have hpro : promote cfg r =
        { r.withFront r.front.transfer with uploadIndexPosition := cfg.displayLines - 1 } := by
      unfold promote
      rw [if_pos hq]
    have hst : ({ r.withFront r.front.transfer with
        uploadIndexPosition := cfg.displayLines - 1 } : Renderer).front.state
        = LState.transferring := by
      show (r.withFront r.front.transfer).front.state = _
      rw [Renderer.front_withFront]
      rfl
    have hpro2 : promote cfg { r.withFront r.front.transfer with
        uploadIndexPosition := cfg.displayLines - 1 } =
        { r.withFront r.front.transfer with uploadIndexPosition := cfg.displayLines - 1 } := by
      unfold promote
      rw [if_neg (by rw [hst]; simp)]
    refine ⟨?_, by rw [hpro], by rw [hpro]; exact hst⟩
    unfold uploadDisplayList
    dsimp only
    rw [hpro, hpro2]
    rfl
  · intro fl2 ul2 cur2 ht hc hb
    have hpro : promote cfg r = r := by
      unfold promote
      rw [if_neg (by rw [ht]; simp)]
    have hmain : uploadDisplayList cfg calcLI true r = tickTransferring cfg calcLI r := by
      unfold uploadDisplayList
      dsimp only
      rw [hpro, if_neg (by simp), if_pos ht]
    refine ⟨?_, ?_, ?_⟩
    · intro hend hnz
      rw [hmain]
      unfold tickTransferring
      rw [if_neg hc, hb]
      dsimp only
      rw [if_pos hend, if_neg hnz]
    · intro hend hz
      refine ⟨?_, ?_⟩
      · rw [hmain]
        unfold tickTransferring
        rw [if_neg hc, hb]
        dsimp only
        rw [if_pos hend, if_pos hz]
      · show (r.withFront fl2.resetGet.clear).front.state = LState.free
        rw [Renderer.front_withFront]
        rfl
    · intro hend
      rw [hmain]
      unfold tickTransferring
      rw [if_neg hc, hb]
      dsimp only
      rw [if_neg (by rw [hend]; simp)]

/-- C3 witness: the promotion conjunct applied to a queued renderer of
the two-band configuration (counter restarts at DISPLAY_LINES - 1 = 1),
and the rewind conjunct applied to a mid-frame renderer at band 1, whose
tick emits band index 1 and decrements the counter to 0. -/
theorem claim_C3_witness :
    (promote cfg0 rQ).uploadIndexPosition = 1 ∧
    (promote cfg0 rQ).front.state = LState.transferring ∧
    uploadDisplayList cfg0 calc0 true rT1 = some (true,
      { rT1.withFront (⟨[], 0, LState.transferring⟩ : DisplayList).resetGet with
        displayListUpload := (⟨[], 0, LState.free⟩ : DisplayList),
        textureStreamArg := ⟨0, 0⟩, uploadIndexPosition := 0 },
      [BusEvent.startColorBufferTransfer 1, BusEvent.writeListData [] 0]) :=
  ⟨((claim_C3 cfg0 calc0 rQ).1 rfl).2.1,
   ((claim_C3 cfg0 calc0 rQ).1 rfl).2.2,
   ((claim_C3 cfg0 calc0 rT1).2 ⟨[], 0, LState.transferring⟩ ⟨[], 0, LState.free⟩ ⟨0, 0⟩
      rfl (by decide) (by decide)).1 (by decide) (by decide)⟩

/-! Lemmas for the commit drain loop and the front-back swap. -/

theorem promote_of_not_transferring {cfg : Cfg} {r : Renderer}
    (h : ¬ (promote cfg r).front.state = LState.transferring) :
    promote cfg r = r ∧ r.front.state = LState.free := by
  by_cases hq : r.front.state = LState.queued
  · exfalso
    apply h
    unfold promote
    rw [if_pos hq]
    show (r.withFront r.front.transfer).front.state = _
    rw [Renderer.front_withFront]
    rfl
  · have hpro : promote cfg r = r := by
      unfold promote
      rw [if_neg hq]
    refine ⟨hpro, ?_⟩
    rw [hpro] at h
    cases hs : r.front.state with
    | free => rfl
    | queued => exact absurd hs hq
    | transferring => exact absurd hs h

theorem tickTransferring_false_front_free {cfg : Cfg} {calcLI : CalcFn} {r1 r2 : Renderer}
    {tr : List BusEvent} (h : tickTransferring cfg calcLI r1 = some (false, r2, tr)) :
    r2.front.state = LState.free := by
  unfold tickTransferring at h
  split at h
  · simp at h
  · cases hb : bandFill cfg calcLI r1 with
    | none => rw [hb] at h; simp at h
    | some res =>
      obtain ⟨fl2, ul2, cur2⟩ := res
      rw [hb] at h
      dsimp only at h
      split at h
      · split at h
        · simp only [Option.some.injEq, Prod.mk.injEq] at h
          obtain ⟨_, rfl, _⟩ := h
          show (r1.withFront fl2.resetGet.clear).front.state = _
          rw [Renderer.front_withFront]
          rfl
        · simp at h
      · simp at h

theorem uploadDisplayList_false_front_free {cfg : Cfg} {calcLI : CalcFn} {cts : Bool}
    {r r2 : Renderer} {tr : List BusEvent}
    (h : uploadDisplayList cfg calcLI cts r = some (false, r2, tr)) :
    r2.front.state = LState.free := by
  unfold uploadDisplayList at h
  split at h
  · simp at h
  · dsimp only at h
    split at h
    · exact tickTransferring_false_front_free h
    · rename_i hnt
      simp only [Option.some.injEq, Prod.mk.injEq] at h
      obtain ⟨rfl, _⟩ := h.2
      obtain ⟨hpro, hfree⟩ := promote_of_not_transferring hnt
      rw [hpro]
      exact hfree

theorem Renderer.listsDistinct_of_eq {r1 r2 : Renderer}
    (h1 : r1.frontList = r2.frontList) (h2 : r1.backList = r2.backList)
    (hd : r2.ListsDistinct) : r1.ListsDistinct := by
  unfold Renderer.ListsDistinct at hd ⊢
  rw [h1, h2]
  exact hd

/-- The drain loop ends with the walker idle: the front list is FREE, and
the back list, the list indices and the distinctness all survive. -/
theorem drainLoop_spec (cfg : Cfg) (calcLI : CalcFn) (ctsSeq : Nat → Bool) :
    ∀ fuel k r r2 k2 tr, r.ListsDistinct →
      drainLoop cfg calcLI ctsSeq fuel k r = some (r2, k2, tr) →
      r2.front.state = LState.free ∧ r2.back = r.back ∧ r2.frontList = r.frontList ∧
        r2.backList = r.backList := by
  intro fuel
  induction fuel with
  | zero =>
    intro k r r2 k2 tr hd h
    simp [drainLoop] at h
  | succ fuel IH =>
    intro k r r2 k2 tr hd h
    simp only [drainLoop] at h
    cases hu : uploadDisplayList cfg calcLI (ctsSeq k) r with
    | none => rw [hu] at h; simp at h
    | some p =>
      obtain ⟨b, r1, tr0⟩ := p
      rw [hu] at h
      dsimp only at h
      obtain ⟨e1, e2, e3, e4, e5⟩ := uploadDisplayList_preserves hd hu
      split at h
      · cases hd2 : drainLoop cfg calcLI ctsSeq fuel (k + 1) r1 with
        | none => rw [hd2] at h; simp at h
        | some q =>
          obtain ⟨r2x, k2x, tr2x⟩ := q
          rw [hd2] at h
          simp only [Option.some.injEq, Prod.mk.injEq] at h
          obtain ⟨rfl, rfl, rfl⟩ := h
          have hd1 : r1.ListsDistinct := Renderer.listsDistinct_of_eq e2 e3 hd
          obtain ⟨f1, f2, f3, f4⟩ := IH (k + 1) r1 r2x k2x tr2x hd1 hd2
          exact ⟨f1, f2.trans e1, f3.trans e2, f4.trans e3⟩
      · rename_i hbf
        simp only [Option.some.injEq, Prod.mk.injEq] at h
        obtain ⟨rfl, rfl, rfl⟩ := h
        have hb : b = false := by
          cases b
          · rfl
          · exact absurd rfl hbf
        subst hb
        exact ⟨uploadDisplayList_false_front_free hu, e1, e2, e3⟩

theorem DisplayList.getNextOp_some {l : DisplayList} {v : Nat} {l1 : DisplayList}
    (h : l.getNextOp = some (v, l1)) : l1.entries = l.entries ∧ l1.state = l.state := by
  unfold DisplayList.getNextOp at h
  split at h
  · simp only [Option.some.injEq, Prod.mk.injEq] at h
    obtain ⟨_, h2⟩ := h
    rw [← h2]
    exact ⟨rfl, rfl⟩
  · simp at h

theorem DisplayList.getNextTri_some {l : DisplayList} {t : RasterizedTriangle}
    {l1 : DisplayList} (h : l.getNextTri = some (t, l1)) :
    l1.entries = l.entries ∧ l1.state = l.state := by
  unfold DisplayList.getNextTri at h
  split at h
  · simp only [Option.some.injEq, Prod.mk.injEq] at h
    obtain ⟨_, h2⟩ := h
    rw [← h2]
    exact ⟨rfl, rfl⟩
  · simp at h

theorem DisplayList.getNextTex_some {l : DisplayList} {a : TextureStreamArg}
    {l1 : DisplayList} (h : l.getNextTex = some (a, l1)) :
    l1.entries = l.entries ∧ l1.state = l.state := by
  unfold DisplayList.getNextTex at h
  split at h
  · simp only [Option.some.injEq, Prod.mk.injEq] at h
    obtain ⟨_, h2⟩ := h
    rw [← h2]
    exact ⟨rfl, rfl⟩
  · simp at h

theorem DisplayList.getNextReg_some {l : DisplayList} {v : Nat} {l1 : DisplayList}
    (h : l.getNextReg = some (v, l1)) : l1.entries = l.entries ∧ l1.state = l.state := by
  unfold DisplayList.getNextReg at h
  split at h
  · simp only [Option.some.injEq, Prod.mk.injEq] at h
    obtain ⟨_, h2⟩ := h
    rw [← h2]
    exact ⟨rfl, rfl⟩
  · simp at h

/-- The fill loop only moves the reading cursor of the front list: the
records and the state of the front list survive the pass. -/
theorem fillLoop_state (cfg : Cfg) (calcLI : CalcFn) (idx : Nat) :
    ∀ fuel fl ul cur res,
      fillLoop cfg calcLI idx fuel fl ul cur = some res →
      res.1.entries = fl.entries ∧ res.1.state = fl.state := by
  intro fuel
  induction fuel with
  | zero =>
    intro fl ul cur res h
    simp only [fillLoop, Option.some.injEq] at h
    rw [← h]
    exact ⟨rfl, rfl⟩
  | succ fuel IH =>
    intro fl ul cur res h
    simp only [fillLoop] at h
    by_cases hE : hasEnoughSpace HARDWARE_BUFFER_SIZE cfg ul = false
    · rw [if_pos hE] at h
      simp only [Option.some.injEq] at h
      rw [← h]
      exact ⟨rfl, rfl⟩
    · rw [if_neg hE] at h
      cases hop : fl.getNextOp with
      | none =>
        rw [hop] at h
        simp only [Option.some.injEq] at h
        rw [← h]
        exact ⟨rfl, rfl⟩
      | some p =>
        obtain ⟨opv, fl1⟩ := p
        obtain ⟨g1, g2⟩ := DisplayList.getNextOp_some hop
        rw [hop] at h
        dsimp only at h
        cases hcr : ul.create HARDWARE_BUFFER_SIZE cfg (Entry.op opv) with
        | none => rw [hcr] at h; simp at h
        | some ul1 =>
          rw [hcr] at h
          dsimp only at h
          by_cases hc1 : opv &&& StreamCommand.STREAM_COMMAND_OP_MASK
              = StreamCommand.TRIANGLE_STREAM
          · rw [if_pos hc1] at h
            cases htr : DisplayList.getNextTri fl1 with
            | none => rw [htr] at h; simp at h
            | some q =>
              obtain ⟨t, fl2⟩ := q
              obtain ⟨g3, g4⟩ := DisplayList.getNextTri_some htr
              rw [htr] at h
              dsimp only at h
              by_cases hfit : DisplayList.usedBytes cfg ul1 + cfg.szTri
                  ≤ HARDWARE_BUFFER_SIZE
              · rw [if_pos hfit] at h
                cases hcl : calcLI t ((idx * cfg.lineResolution) % 65536)
                    (((idx + 1) * cfg.lineResolution) % 65536) with
                | some t2 =>
                  rw [hcl] at h
                  dsimp only at h
                  obtain ⟨f1, f2⟩ := IH _ _ _ _ h
                  exact ⟨f1.trans (g3.trans g1), f2.trans (g4.trans g2)⟩
                | none =>
                  rw [hcl] at h
                  dsimp only at h
                  obtain ⟨f1, f2⟩ := IH _ _ _ _ h
                  exact ⟨f1.trans (g3.trans g1), f2.trans (g4.trans g2)⟩
              · rw [if_neg hfit] at h; simp at h
          · rw [if_neg hc1] at h
            by_cases hc2 : opv &&& StreamCommand.STREAM_COMMAND_OP_MASK
                  = StreamCommand.FRAMEBUFFER_OP
                ∨ opv &&& StreamCommand.STREAM_COMMAND_OP_MASK = StreamCommand.NOP
            · rw [if_pos hc2] at h
              obtain ⟨f1, f2⟩ := IH _ _ _ _ h
              exact ⟨f1.trans g1, f2.trans g2⟩
            · rw [if_neg hc2] at h
              by_cases hc3 : opv &&& StreamCommand.STREAM_COMMAND_OP_MASK
                  = StreamCommand.TEXTURE_STREAM
              · rw [if_pos hc3] at h
                cases htx : DisplayList.getNextTex fl1 with
                | none => rw [htx] at h; simp at h
                | some q =>
                  obtain ⟨ta, fl2⟩ := q
                  obtain ⟨g3, g4⟩ := DisplayList.getNextTex_some htx
                  rw [htx] at h
                  dsimp only at h
                  by_cases hdp : ta.pixels + ta.remainingPixels = cur.pixels
                  · rw [if_pos hdp] at h
                    obtain ⟨f1, f2⟩ := IH _ _ _ _ h
                    exact ⟨f1.trans (g3.trans g1), f2.trans (g4.trans g2)⟩
                  · rw [if_neg hdp] at h
                    simp only [Option.some.injEq] at h
                    rw [← h]
                    exact ⟨g3.trans g1, g4.trans g2⟩
              · rw [if_neg hc3] at h
                by_cases hc4 : opv &&& StreamCommand.STREAM_COMMAND_OP_MASK
                    = StreamCommand.SET_REG
                · rw [if_pos hc4] at h
                  cases hcr2 : DisplayList.create HARDWARE_BUFFER_SIZE cfg ul1
                      (Entry.reg 0) with
                  | none => rw [hcr2] at h; simp at h
                  | some ulx =>
                    rw [hcr2] at h
                    dsimp only at h
                    cases hrg : DisplayList.getNextReg fl1 with
                    | none => rw [hrg] at h; simp at h
                    | some q =>
                      obtain ⟨v, fl2⟩ := q
                      obtain ⟨g3, g4⟩ := DisplayList.getNextReg_some hrg
                      rw [hrg] at h
                      dsimp only at h
                      obtain ⟨f1, f2⟩ := IH _ _ _ _ h
                      exact ⟨f1.trans (g3.trans g1), f2.trans (g4.trans g2)⟩
                · rw [if_neg hc4] at h
                  obtain ⟨f1, f2⟩ := IH _ _ _ _ h
                  exact ⟨f1.trans g1, f2.trans g2⟩

/-- A transferring tick leaves the front list transferring unless it
finishes the frame, in which case the front list is freed. -/
theorem tickTransferring_front_after {cfg : Cfg} {calcLI : CalcFn} {r1 : Renderer}
    {b : Bool} {r2 : Renderer} {tr : List BusEvent}
    (h : tickTransferring cfg calcLI r1 = some (b, r2, tr)) :
    r2.front.state = r1.front.state ∨ r2.front.state = LState.free := by
  unfold tickTransferring at h
  split at h
  · simp only [Option.some.injEq, Prod.mk.injEq] at h
    obtain ⟨_, rfl, _⟩ := h
    exact Or.inl rfl
  · cases hb : bandFill cfg calcLI r1 with
    | none => rw [hb] at h; simp at h
    | some res =>
      obtain ⟨fl2, ul2, cur2⟩ := res
      have hst : fl2.state = r1.front.state := by
        unfold bandFill at hb
        exact (fillLoop_state cfg calcLI r1.uploadIndexPosition _ _ _ _ _ hb).2
      rw [hb] at h
      dsimp only at h
      split at h
      · split at h
        · simp only [Option.some.injEq, Prod.mk.injEq] at h
          obtain ⟨_, rfl, _⟩ := h
          right
          show (r1.withFront fl2.resetGet.clear).front.state = _
          rw [Renderer.front_withFront]
          rfl
        · simp only [Option.some.injEq, Prod.mk.injEq] at h
          obtain ⟨_, rfl, _⟩ := h
          left
          show (r1.withFront fl2.resetGet).front.state = _
          rw [Renderer.front_withFront]
          exact hst
      · simp only [Option.some.injEq, Prod.mk.injEq] at h
        obtain ⟨_, rfl, _⟩ := h
        left
        show (r1.withFront fl2).front.state = _
        rw [Renderer.front_withFront]
        exact hst

/-- A walker tick on a queued front list with the bus clear to send
always moves the front list out of QUEUED: it ends TRANSFERRING, or FREE
when the single tick already completes the frame. -/
theorem uploadDisplayList_true_from_queued {cfg : Cfg} {calcLI : CalcFn} {r : Renderer}
    {b : Bool} {r2 : Renderer} {tr : List BusEvent}
    (hq : r.front.state = LState.queued)
    (h : uploadDisplayList cfg calcLI true r = some (b, r2, tr)) :
    r2.front.state = LState.transferring ∨ r2.front.state = LState.free := by
  unfold uploadDisplayList at h
  rw [if_neg (by simp)] at h
  dsimp only at h
  have hst : (promote cfg r).front.state = LState.transferring := by
    unfold promote
    rw [if_pos hq]
    show (r.withFront r.front.transfer).front.state = _
    rw [Renderer.front_withFront]
    rfl
  rw [if_pos hst] at h
  rcases tickTransferring_front_after h with h1 | h1
  · left
    rw [h1]
    exact hst
  · right
    exact h1

theorem swapLists_front (r : Renderer) : (swapLists r).front = r.back := by
  unfold swapLists Renderer.front Renderer.back
  by_cases h : r.backList = 0 <;> simp [h]

theorem swapLists_back (r : Renderer) (hd : r.ListsDistinct) :
    (swapLists r).back = r.front := by
  unfold swapLists Renderer.back Renderer.front
  rcases hd with ⟨h1, h2⟩ | ⟨h1, h2⟩ <;> simp [h1, h2]

theorem swapLists_listsDistinct (r : Renderer) : (swapLists r).ListsDistinct := by
  unfold swapLists Renderer.ListsDistinct
  by_cases h : r.backList = 0 <;> simp [h]

/-- C6 (amended): consider a commit whose FRAMEBUFFER_COMMIT opcode
append succeeded and whose drain loop finished.  At the enqueue-and-swap
point the new front list (the list just enqueued) is QUEUED and the new
back list (the list just drained) is FREE.  Commit then kicks the walker
once before returning: at commit-return the new back list is still FREE,
and the new front list is QUEUED exactly when that final kick found the
bus not clear to send; when the bus was clear the kick has advanced it to
TRANSFERRING, or to FREE when the single kick completed the frame. -/
theorem claim_C6 (cfg : Cfg) (calcLI : CalcFn) (ctsSeq : Nat → Bool) (fuel : Nat)
    (r : Renderer) (hd : r.ListsDistinct) (bl : DisplayList)
    (hcr : r.back.create cfg.displayListSize cfg
      (Entry.op (StreamCommand.FRAMEBUFFER_COMMIT ||| StreamCommand.FRAMEBUFFER_COLOR))
      = some bl)
    (r2 : Renderer) (k : Nat) (tr1 : List BusEvent)
    (hdr : drainLoop cfg calcLI ctsSeq fuel 0 (r.withBack bl) = some (r2, k, tr1)) :
    (swapLists (r2.withBack r2.back.enqueue)).front.state = LState.queued ∧
    (swapLists (r2.withBack r2.back.enqueue)).back.state = LState.free ∧
    (∀ b r5 tr2, uploadDisplayList cfg calcLI (ctsSeq k)
        (swapLists (r2.withBack r2.back.enqueue)) = some (b, r5, tr2) →
      commit cfg calcLI ctsSeq fuel r = some (r5, tr1 ++ tr2) ∧
      r5.back.state = LState.free ∧
      (ctsSeq k = false → r5.front.state = LState.queued) ∧
      (ctsSeq k = true →
        r5.front.state = LState.transferring ∨ r5.front.state = LState.free) ∧
      (r5.front.state = LState.queued ↔ ctsSeq k = false)) := by
  have hd1 : (r.withBack bl).ListsDistinct := (Renderer.listsDistinct_withBack r bl).mpr hd
  obtain ⟨hfree, hback, hfl, hbl⟩ := drainLoop_spec cfg calcLI ctsSeq fuel 0
    (r.withBack bl) r2 k tr1 hd1 hdr
  have hd2 : r2.ListsDistinct := Renderer.listsDistinct_of_eq hfl hbl hd1
  have hd3 : (r2.withBack r2.back.enqueue).ListsDistinct :=
    (Renderer.listsDistinct_withBack r2 _).mpr hd2
  have hfrontq : (swapLists (r2.withBack r2.back.enqueue)).front.state = LState.queued := by
    rw [swapLists_front, Renderer.back_withBack]
    rfl
  have hbackf : (swapLists (r2.withBack r2.back.enqueue)).back.state = LState.free := by
    rw [swapLists_back _ hd3, Renderer.front_withBack _ _ hd2]
    exact hfree
  refine ⟨hfrontq, hbackf, ?_⟩
  intro b r5 tr2 hku
  obtain ⟨k1, k2, k3, k4, k5⟩ :=
    uploadDisplayList_preserves (swapLists_listsDistinct _) hku
  have hbusy : ctsSeq k = false → r5.front.state = LState.queued := by
    intro hcf
    rw [hcf] at hku
    unfold uploadDisplayList at hku
    rw [if_pos rfl] at hku
    simp only [Option.some.injEq, Prod.mk.injEq] at hku
    obtain ⟨_, rfl, _⟩ := hku
    exact hfrontq
  have hclear : ctsSeq k = true →
      r5.front.state = LState.transferring ∨ r5.front.state = LState.free := by
    intro hct
    rw [hct] at hku
    exact uploadDisplayList_true_from_queued hfrontq hku
  refine ⟨?_, ?_, hbusy, hclear, ?_⟩
  · rw [commit, hcr]
    dsimp only
    rw [hdr]
    dsimp only
    rw [hku]
  · rw [k1]
    exact hbackf
  · constructor
    · intro h5q
      cases hc : ctsSeq k with
      | false => rfl
      | true =>
        exfalso
        rcases hclear hc with h1 | h1 <;> rw [h5q] at h1 <;> exact absurd h1 (by simp)
    · exact hbusy

/-- C6 counterexample to the claim as stated: on a concrete renderer with
the bus always clear, commit returns with the new front list already
advanced to TRANSFERRING by the final walker kick, not QUEUED (the new
back list is FREE as claimed). -/
theorem claim_C6_cex :
    (commit cfg0 calc0 cts0 4 r0).map (fun p => ((p.1).front.state, (p.1).back.state))
      = some (LState.transferring, LState.free) ∧
    LState.transferring ≠ LState.queued := by
  exact ⟨by decide, by decide⟩

/-- C6 witness: the amended theorem applied to a fresh renderer whose
back list takes the commit opcode and whose drain loop ends on the first
tick; the final kick finds the bus clear, so at commit-return the new
front list has been advanced out of QUEUED (to TRANSFERRING here) and the
QUEUED-iff-bus-busy equivalence holds. -/
theorem claim_C6_witness :
    (swapLists ((r0.withBack blW).withBack ((r0.withBack blW).back.enqueue))).front.state
      = LState.queued ∧
    (swapLists ((r0.withBack blW).withBack ((r0.withBack blW).back.enqueue))).back.state
      = LState.free ∧
    commit cfg0 calc0 cts0 2 r0 = some (rC6,
      [BusEvent.startColorBufferTransfer 1, BusEvent.writeListData [Entry.op 12305] 4]) ∧
    rC6.back.state = LState.free ∧
    (rC6.front.state = LState.transferring ∨ rC6.front.state = LState.free) ∧
    (rC6.front.state = LState.queued ↔ cts0 1 = false) := by
  have base := claim_C6 cfg0 calc0 cts0 2 r0 (Or.inl ⟨rfl, by decide⟩) blW (by decide)
    (r0.withBack blW) 1 [] (by decide)
  have kick := base.2.2 true rC6
    [BusEvent.startColorBufferTransfer 1, BusEvent.writeListData [Entry.op 12305] 4]
    (by decide)
  exact ⟨base.1, base.2.1, kick.1, kick.2.1, kick.2.2.2.1 rfl, kick.2.2.2.2⟩

/-! Lemmas for the color packing claim. -/

set_option maxRecDepth 40000 in
theorem toU16_sar4_small : ∀ n : Nat, n < 256 → toU16 (sar4 (n : Int)) = n >>> 4 := by
  decide

theorem lorLeftComm (a b c : Nat) : a ||| (b ||| c) = b ||| (a ||| c) := by
  rw [← Nat.lor_assoc, Nat.lor_comm a b, Nat.lor_assoc]

theorem lorPackLt (a b g r : Nat) (ha : a < 16) (hb : b < 16) (hg : g < 16)
    (hr : r < 16) : (a ||| (b <<< 4) ||| (g <<< 8) ||| (r <<< 12)) < 65536 := by
  have h1 : a < 2 ^ 16 := by omega
  have h2 : b <<< 4 < 2 ^ 16 := by
    have := Nat.shiftLeft_lt (x := b) (n := 4) (m := 4) (by omega)
    omega
  have h3 : g <<< 8 < 2 ^ 16 := by
    have := Nat.shiftLeft_lt (x := g) (n := 4) (m := 8) (by omega)
    omega
  have h4 : r <<< 12 < 2 ^ 16 := by
    have := Nat.shiftLeft_lt (x := r) (n := 4) (m := 12) (by omega)
    omega
  have l1 : (a ||| (b <<< 4)) < 2 ^ 16 := Nat.bitwise_lt h1 h2
  have l2 : (a ||| (b <<< 4) ||| (g <<< 8)) < 2 ^ 16 := Nat.bitwise_lt l1 h3
  have l3 : (a ||| (b <<< 4) ||| (g <<< 8) ||| (r <<< 12)) < 2 ^ 16 := Nat.bitwise_lt l2 h4
  omega

/-- C9: for every color vector with all four channels in the byte range,
convertColor packs the high nibbles of the channels as
red, green, blue, alpha from the most significant nibble down to the least
significant one. -/
theorem claim_C9 (R G B A : Int)
    (hR0 : 0 ≤ R) (hR1 : R ≤ 255) (hG0 : 0 ≤ G) (hG1 : G ≤ 255)
    (hB0 : 0 ≤ B) (hB1 : B ≤ 255) (hA0 : 0 ≤ A) (hA1 : A ≤ 255) :
    convertColor ⟨R, G, B, A⟩ =
      ((R.toNat >>> 4) <<< 12) ||| ((G.toNat >>> 4) <<< 8) |||
        ((B.toNat >>> 4) <<< 4) ||| (A.toNat >>> 4) := by
  have eR : R = (R.toNat : Int) := (Int.toNat_of_nonneg hR0).symm
  have eG : G = (G.toNat : Int) := (Int.toNat_of_nonneg hG0).symm
  have eB : B = (B.toNat : Int) := (Int.toNat_of_nonneg hB0).symm
  have eA : A = (A.toNat : Int) := (Int.toNat_of_nonneg hA0).symm
  have bR : R.toNat < 256 := by omega
  have bG : G.toNat < 256 := by omega
  have bB : B.toNat < 256 := by omega
  have bA : A.toNat < 256 := by omega
  have nR : R.toNat >>> 4 < 16 := by
    rw [Nat.shiftRight_eq_div_pow]; omega
  have nG : G.toNat >>> 4 < 16 := by
    rw [Nat.shiftRight_eq_div_pow]; omega
  have nB : B.toNat >>> 4 < 16 := by
    rw [Nat.shiftRight_eq_div_pow]; omega
  have nA : A.toNat >>> 4 < 16 := by
    rw [Nat.shiftRight_eq_div_pow]; omega
  show (toU16 (sar4 A) ||| (toU16 (sar4 B) <<< 4) ||| (toU16 (sar4 G) <<< 8)
      ||| (toU16 (sar4 R) <<< 12)) % 65536 = _
  rw [eR, eG, eB, eA]
  rw [toU16_sar4_small _ bR, toU16_sar4_small _ bG, toU16_sar4_small _ bB,
    toU16_sar4_small _ bA]
  rw [Nat.mod_eq_of_lt (lorPackLt _ _ _ _ nA nB nG nR)]
  simp only [Nat.lor_assoc, Nat.lor_comm, lorLeftComm, Int.toNat_natCast]

/-- C9 witness: the theorem applied to the concrete color 0x12, 0x34,
0x56, 0x78. -/
theorem claim_C9_witness :
    (0 : Int) ≤ 18 ∧ (18 : Int) ≤ 255 ∧
    convertColor ⟨18, 52, 86, 120⟩ =
      (((18 : Int).toNat >>> 4) <<< 12) ||| (((52 : Int).toNat >>> 4) <<< 8) |||
        (((86 : Int).toNat >>> 4) <<< 4) ||| ((120 : Int).toNat >>> 4) :=
  ⟨by decide, by decide,
    claim_C9 18 52 86 120 (by decide) (by decide) (by decide) (by decide)
      (by decide) (by decide) (by decide) (by decide)⟩

/-- C10: setTexEnv ignores its target and pname arguments entirely: two
calls in the same driver state with the same param but arbitrary target
and pname values return the same flag and produce the same ConfReg2
snapshot and the same back-list contents. -/
theorem claim_C10 (cfg : Cfg) (r : Renderer) (target1 pname1 target2 pname2 param : Nat) :
    setTexEnv cfg r target1 pname1 param = setTexEnv cfg r target2 pname2 param ∧
    (setTexEnv cfg r target1 pname1 param).1 = (setTexEnv cfg r target2 pname2 param).1 ∧
    ((setTexEnv cfg r target1 pname1 param).2).confReg2
      = ((setTexEnv cfg r target2 pname2 param).2).confReg2 ∧
    ((setTexEnv cfg r target1 pname1 param).2).back
      = ((setTexEnv cfg r target2 pname2 param).2).back :=
  ⟨rfl, rfl, rfl, rfl⟩

end RasteriCEr
